import Mathlib

set_option maxHeartbeats 1000000

/-!
Verification of the `try-utils` utility library (numeric and textual
validation pipelines, number/string operations, and the fetch adapter).

Modelling conventions:
* A JavaScript number is modelled by `JSNum`: NaN, the two infinities, or a
  finite value.  Finite doubles are modelled as exact rationals; arithmetic
  that is exact on doubles in the ranges exercised by the theorems (safe
  integers, halves) is modelled exactly.
* A JavaScript value reaching the validators is modelled by `JSVal`
  (number, string, null, undefined, boolean, array of numbers).
* Option objects are records whose fields are `Option (Option _)`:
  `none` = key absent from the object, `some none` = key present with value
  `undefined`, `some (some x)` = key present with value `x`.  The spread
  merge of the source is `overlay`.
* Thrown `Error`s are modelled by the `Except String` error channel; the
  `tryCatch` wrapper of the source turns thrown errors into the `[value,
  error]` tuple, i.e. exactly an `Except String` value.
-/

/-- Model of a JavaScript number: NaN, the infinities, or a finite value
(finite doubles modelled as exact rationals). -/
inductive JSNum where
  | nan
  | inf
  | negInf
  | fin (q : ℚ)
  deriving DecidableEq, Repr

/-- `Number.isNaN`. -/
def JSNum.isNaN : JSNum → Bool
  | .nan => true
  | _ => false

/-- `Number.isFinite`. -/
def JSNum.isFinite : JSNum → Bool
  | .fin _ => true
  | _ => false

/-- `Number.isInteger`. -/
def JSNum.isInteger : JSNum → Bool
  | .fin q => q.den = 1
  | _ => false

/-- JavaScript strict equality `===` on numbers (NaN compares unequal to
everything, including itself). -/
def jsEq : JSNum → JSNum → Bool
  | .nan, _ => false
  | _, .nan => false
  | .inf, .inf => true
  | .inf, _ => false
  | .negInf, .negInf => true
  | .negInf, _ => true
  | _, .negInf => false
  | .fin _, .inf => false
  | .fin a, .fin b => a == b

/-- JavaScript `<` on numbers (false whenever either side is NaN). -/
def jsLt : JSNum → JSNum → Bool
  | .nan, _ => false
  | _, .nan => false
  | .inf, _ => false
  | .negInf, .negInf => false
  | .negInf, _ => true
  | _, .negInf => false
  | .fin _, .inf => true
  | .fin a, .fin b => a < b

/-- JavaScript `>` on numbers. -/
def jsGt (a b : JSNum) : Bool := jsLt b a

/-- Truncation toward zero of a rational, as JavaScript integer conversion
inside `%` does. -/
def ratTrunc (q : ℚ) : ℤ := if q < 0 then -⌊-q⌋ else ⌊q⌋

/-- JavaScript remainder `n % 2` (NaN for NaN and the infinities, otherwise
`n - 2 * trunc (n / 2)`, which is exact on doubles). -/
def jsMod2 : JSNum → JSNum
  | .nan => .nan
  | .inf => .nan
  | .negInf => .nan
  | .fin q => .fin (q - 2 * ratTrunc (q / 2))

/-- JavaScript addition (used by `sum`; exact on the finite values, with the
usual NaN/infinity propagation). -/
def jsAdd : JSNum → JSNum → JSNum
  | .nan, _ => .nan
  | _, .nan => .nan
  | .inf, .negInf => .nan
  | .negInf, .inf => .nan
  | .inf, _ => .inf
  | _, .inf => .inf
  | .negInf, _ => .negInf
  | _, .negInf => .negInf
  | .fin a, .fin b => .fin (a + b)

/-- JavaScript division (used by `average`; the negative-zero distinction is
not modelled). -/
def jsDiv : JSNum → JSNum → JSNum
  | .nan, _ => .nan
  | _, .nan => .nan
  | .inf, .inf => .nan
  | .inf, .negInf => .nan
  | .negInf, .inf => .nan
  | .negInf, .negInf => .nan
  | .inf, .fin b => if b < 0 then .negInf else .inf
  | .negInf, .fin b => if b < 0 then .inf else .negInf
  | .fin _, .inf => .fin 0
  | .fin _, .negInf => .fin 0
  | .fin a, .fin b =>
    if b = 0 then (if a = 0 then .nan else if a < 0 then .negInf else .inf)
    else .fin (a / b)

/-- Decimal digit character. -/
def digitChar : ℕ → Char
  | 0 => '0'
  | 1 => '1'
  | 2 => '2'
  | 3 => '3'
  | 4 => '4'
  | 5 => '5'
  | 6 => '6'
  | 7 => '7'
  | 8 => '8'
  | _ => '9'

/-- Big-endian decimal digits, structurally recursive on a fuel bound (the
fuel never runs out: the digit count of `n` is at most `n + 1`). -/
def natDigitsAux : ℕ → ℕ → List Char
  | 0, _ => []
  | fuel + 1, n =>
    if n < 10 then [digitChar n]
    else natDigitsAux fuel (n / 10) ++ [digitChar (n % 10)]

/-- Big-endian decimal digits of a natural number. -/
def natDigits (n : ℕ) : List Char := natDigitsAux (n + 1) n

/-- Decimal representation of a natural number. -/
def natRepr (n : ℕ) : String := String.mk (natDigits n)

/-- Decimal representation of an integer. -/
def intRepr (m : ℤ) : String :=
  if m < 0 then "-" ++ natRepr m.natAbs else natRepr m.toNat

/-- Powers of ten as a structurally recursive rational, so that concrete
instances unfold. -/
def pow10 : ℕ → ℚ
  | 0 => 1
  | n + 1 => 10 * pow10 n

/-- Powers of ten on the integers. -/
def intPow10 : ℕ → ℤ
  | 0 => 1
  | n + 1 => 10 * intPow10 n

/-- Fractional decimal digits of `num / den` with `0 ≤ num < den`, by plain
integer arithmetic; fuel-bounded (every double has a terminating decimal
expansion well within the fuel). -/
def fracDigitsInt (num den : ℤ) : ℕ → List Char
  | 0 => []
  | fuel + 1 =>
    if num = 0 then []
    else
      digitChar ((num * 10).fdiv den).toNat ::
        fracDigitsInt ((num * 10).emod den) den fuel

/-- Decimal representation of a non-negative rational. -/
def ratReprNN (q : ℚ) : String :=
  if q.den = 1 then natRepr q.num.toNat
  else
    natRepr (q.num.fdiv q.den).toNat ++ "." ++
      String.mk (fracDigitsInt (q.num.emod q.den) q.den 1200)

/-- Decimal representation of a rational, as JavaScript number-to-string
conversion produces for the magnitudes reached by the theorems (below 10^21,
where JavaScript does not switch to exponent form). -/
def ratRepr (q : ℚ) : String :=
  if q < 0 then "-" ++ ratReprNN (-q) else ratReprNN q

/-- JavaScript number-to-string conversion (template-literal interpolation). -/
def jsNumToString : JSNum → String
  | .nan => "NaN"
  | .inf => "Infinity"
  | .negInf => "-Infinity"
  | .fin q => ratRepr q

/-- Model of a JavaScript value reaching the validators: a number, a string,
null, undefined, a boolean, or an array of numbers. -/
inductive JSVal where
  | num (n : JSNum)
  | str (s : String)
  | nullV
  | undef
  | bool (b : Bool)
  | arr (xs : List JSNum)
  deriving DecidableEq, Repr

/-- JavaScript truthiness of an optional boolean option value (`undefined`
and `false` are falsy). -/
def truthy (b : Option Bool) : Bool := b.getD false

/-- Per-key rule of the object spread merge: the override's entry
wins whenever the key is present in the override (even when its value is
`undefined`), otherwise the default's entry is used. -/
def overlay {α : Type} (dflt ov : Option (Option α)) : Option α :=
  match ov with
  | some v => v
  | none => dflt.getD none

namespace Num

/-- `NumberValidationOptions` object as supplied by a caller.  Each field:
`none` = key absent, `some none` = key present with `undefined`,
`some (some x)` = key present with value `x`. -/
structure NumberValidationOptions where
  min : Option (Option ℚ) := none
  max : Option (Option ℚ) := none
  allowNegative : Option (Option Bool) := none
  allowZero : Option (Option Bool) := none
  allowInfinity : Option (Option Bool) := none
  allowNaN : Option (Option Bool) := none
  deriving DecidableEq, Repr

/-- `Number.MAX_SAFE_INTEGER` = 2^53 - 1 (as a plain numeral, so that
comparisons against it evaluate by `decide`). -/
def MAX_SAFE_INTEGER : ℚ := 9007199254740991

/-- The numeric `DEFAULT_OPTIONS` constant. -/
def DEFAULT_OPTIONS : NumberValidationOptions :=
  { min := some (some (-MAX_SAFE_INTEGER))
    max := some (some MAX_SAFE_INTEGER)
    allowNegative := some (some true)
    allowZero := some (some true)
    allowInfinity := some (some false)
    allowNaN := some (some false) }

/-- Effective (merged) numeric configuration: each option is either a value
or `undefined`. -/
structure MergedNumberOptions where
  min : Option ℚ
  max : Option ℚ
  allowNegative : Option Bool
  allowZero : Option Bool
  allowInfinity : Option Bool
  allowNaN : Option Bool
  deriving DecidableEq, Repr

/-- The spread merge of `DEFAULT_OPTIONS` with the caller's options object. -/
def mergeOptions (o : NumberValidationOptions) : MergedNumberOptions :=
  { min := overlay DEFAULT_OPTIONS.min o.min
    max := overlay DEFAULT_OPTIONS.max o.max
    allowNegative := overlay DEFAULT_OPTIONS.allowNegative o.allowNegative
    allowZero := overlay DEFAULT_OPTIONS.allowZero o.allowZero
    allowInfinity := overlay DEFAULT_OPTIONS.allowInfinity o.allowInfinity
    allowNaN := overlay DEFAULT_OPTIONS.allowNaN o.allowNaN }

/-- Message of the minimum-bound failure. -/
def minMsg (n : JSNum) (m : ℚ) : String :=
  "Number (" ++ jsNumToString n ++ ") is less than minimum allowed value (" ++
    ratRepr m ++ ")"

/-- Message of the maximum-bound failure. -/
def maxMsg (n : JSNum) (m : ℚ) : String :=
  "Number (" ++ jsNumToString n ++ ") is greater than maximum allowed value (" ++
    ratRepr m ++ ")"

/-- The minimum-bound check (`opts.min !== undefined && num < opts.min`). -/
def minCheck (n : JSNum) : Option ℚ → Except String Unit
  | some m => if jsLt n (.fin m) then .error (minMsg n m) else .ok ()
  | none => .ok ()

/-- The maximum-bound check (`opts.max !== undefined && num > opts.max`). -/
def maxCheck (n : JSNum) : Option ℚ → Except String Unit
  | some m => if jsGt n (.fin m) then .error (maxMsg n m) else .ok ()
  | none => .ok ()

/-- The numeric validation pipeline `isNumber` (second parameter defaults to
`DEFAULT_OPTIONS` in the source, modelled by an optional argument). -/
def isNumber (v : JSVal) (options : Option NumberValidationOptions) :
    Except String Unit :=
  let opts := mergeOptions (options.getD DEFAULT_OPTIONS)
  if v = .nullV ∨ v = .undef then .error "Number is required"
  else match v with
    | .num n =>
      if ¬ truthy opts.allowNaN ∧ n.isNaN then .error "Number cannot be NaN"
      else if truthy opts.allowNaN ∧ n.isNaN then .ok ()
      else if ¬ truthy opts.allowInfinity ∧ ¬ n.isFinite then
        .error "Number cannot be Infinity or -Infinity"
      else if truthy opts.allowInfinity ∧ ¬ n.isFinite then .ok ()
      else if ¬ truthy opts.allowZero ∧ jsEq n (.fin 0) then
        .error "Number cannot be zero"
      else if ¬ truthy opts.allowNegative ∧ jsLt n (.fin 0) then
        .error "Number cannot be negative"
      else do
        minCheck n opts.min
        maxCheck n opts.max
    | _ => .error "Type must be a number"

/-- Extraction of the numeric payload after validation; on non-numbers it
produces exactly the failure the presence/type checks would have produced
(the branch is unreachable after a successful `isNumber`). -/
def asNumber : JSVal → Except String JSNum
  | .num n => .ok n
  | .nullV => .error "Number is required"
  | .undef => .error "Number is required"
  | _ => .error "Type must be a number"

end Num

/-- Membership of the whitespace class trimmed by `String.prototype.trim`
(ASCII part; the Unicode space characters play no role in the claims). -/
def isJsSpace (c : Char) : Bool :=
  c = ' ' ∨ c = '\t' ∨ c = '\n' ∨ c = '\r' ∨ c = '\x0B' ∨ c = '\x0C'

/-- `String.prototype.trim` on the character list. -/
def jsTrimList (l : List Char) : List Char :=
  ((l.dropWhile isJsSpace).reverse.dropWhile isJsSpace).reverse

/-- Membership of the control-character class of the source's regular
expression `[\x00-\x08\x0B\x0C\x0E-\x1F\x7F]`. -/
def isControlChar (c : Char) : Bool :=
  c.toNat ≤ 8 ∨ c.toNat = 11 ∨ c.toNat = 12 ∨
    (14 ≤ c.toNat ∧ c.toNat ≤ 31) ∨ c.toNat = 127

namespace Str

/-- `StringValidationOptions` object as supplied by a caller, with the same
key-presence convention as the numeric options.  `maxLength` is a JavaScript
number; the integer model covers every value the claims exercise. -/
structure StringValidationOptions where
  maxLength : Option (Option ℤ) := none
  allowWhitespaceOnly : Option (Option Bool) := none
  allowSpecialChars : Option (Option Bool) := none
  deriving DecidableEq, Repr

/-- The textual `DEFAULT_OPTIONS` constant. -/
def DEFAULT_OPTIONS : StringValidationOptions :=
  { maxLength := some (some 10000)
    allowWhitespaceOnly := some (some false)
    allowSpecialChars := some (some true) }

/-- Effective (merged) textual configuration. -/
structure MergedStringOptions where
  maxLength : Option ℤ
  allowWhitespaceOnly : Option Bool
  allowSpecialChars : Option Bool
  deriving DecidableEq, Repr

/-- The spread merge of `DEFAULT_OPTIONS` with the caller's options object. -/
def mergeOptions (o : StringValidationOptions) : MergedStringOptions :=
  { maxLength := overlay DEFAULT_OPTIONS.maxLength o.maxLength
    allowWhitespaceOnly :=
      overlay DEFAULT_OPTIONS.allowWhitespaceOnly o.allowWhitespaceOnly
    allowSpecialChars :=
      overlay DEFAULT_OPTIONS.allowSpecialChars o.allowSpecialChars }

/-- Message of the maximum-length failure. -/
def lenMsg (len : ℕ) (m : ℤ) : String :=
  "String length (" ++ natRepr len ++ ") exceeds maximum allowed length (" ++
    intRepr m ++ ")"

/-- The maximum-length check `opts.maxLength && str.length > opts.maxLength`:
an `undefined` or zero (falsy) merged `maxLength` skips the check. -/
def maxLenCheck (len : ℕ) : Option ℤ → Except String Unit
  | some m => if m ≠ 0 ∧ (len : ℤ) > m then .error (lenMsg len m) else .ok ()
  | none => .ok ()

/-- The textual validation pipeline `isString` (second parameter defaults to
`DEFAULT_OPTIONS` in the source, modelled by an optional argument). -/
def isString (v : JSVal) (options : Option StringValidationOptions) :
    Except String Unit :=
  let opts := mergeOptions (options.getD DEFAULT_OPTIONS)
  if v = .nullV ∨ v = .undef then .error "String is required"
  else match v with
    | .str s =>
      if s.data.length = 0 then .error "String must not be empty"
      else if ¬ truthy opts.allowWhitespaceOnly ∧
          (jsTrimList s.data).length = 0 then
        .error "String must not be whitespace-only"
      else do
        maxLenCheck s.data.length opts.maxLength
        if ¬ truthy opts.allowSpecialChars ∧ s.data.any isControlChar then
          .error "String contains invalid control characters"
        else .ok ()
    | _ => .error "Type must be a string"

/-- Extraction of the string payload after validation; on non-strings it
produces exactly the failure the presence/type checks would have produced
(the branch is unreachable after a successful `isString`). -/
def asString : JSVal → Except String String
  | .str s => .ok s
  | .nullV => .error "String is required"
  | .undef => .error "String is required"
  | _ => .error "Type must be a string"

end Str

namespace Num

/-- The `isEven` operation. -/
def isEven (v : JSVal) (options : Option NumberValidationOptions) :
    Except String Bool := do
  isNumber v options
  let n ← asNumber v
  return jsEq (jsMod2 n) (.fin 0)

/-- The `isOdd` operation. -/
def isOdd (v : JSVal) (options : Option NumberValidationOptions) :
    Except String Bool := do
  isNumber v options
  let n ← asNumber v
  return ! jsEq (jsMod2 n) (.fin 0)

/-- The spread `... options` with `allowNegative` and `allowZero` forced, as
`factorial` and `fibonacci` build their options (an omitted `options`
argument spreads to nothing). -/
def seqOptions (options : Option NumberValidationOptions) :
    NumberValidationOptions :=
  { options.getD {} with
      allowNegative := some (some false), allowZero := some (some true) }

/-- Exact value of the factorial product loop (JavaScript rounds the double
product beyond 22!; no theorem relies on the numeric value). -/
def factValue : ℕ → ℕ
  | 0 => 1
  | n + 1 => (n + 1) * factValue n

/-- The `factorial` operation. -/
def factorial (v : JSVal) (options : Option NumberValidationOptions) :
    Except String JSNum := do
  isNumber v (some (seqOptions options))
  let n ← asNumber v
  if ¬ n.isInteger then .error "Factorial is only defined for integers"
  else if jsGt n (.fin 170) then
    .error "Factorial result would be too large (max: 170)"
  else match n with
    | .fin q => .ok (.fin (factValue q.num.toNat))
    | _ => .ok n

/-- State of the Fibonacci loop: the pair `(a, b)` after `n` steps. -/
def fibPair : ℕ → ℕ × ℕ
  | 0 => (0, 1)
  | n + 1 => ((fibPair n).2, (fibPair n).1 + (fibPair n).2)

/-- Exact value of the Fibonacci loop (exact on doubles up to index 78). -/
def fibValue (n : ℕ) : ℕ := (fibPair n).1

/-- The `fibonacci` operation. -/
def fibonacci (v : JSVal) (options : Option NumberValidationOptions) :
    Except String JSNum := do
  isNumber v (some (seqOptions options))
  let n ← asNumber v
  if ¬ n.isInteger then .error "Fibonacci is only defined for integers"
  else if jsGt n (.fin 78) then
    .error "Fibonacci result would be too large (max: 78)"
  else match n with
    | .fin q => .ok (.fin (fibValue q.num.toNat))
    | _ => .ok n

/-- The spread `... options` with `allowNegative` and `allowZero` both forced
to `false`, as `isPrime` builds its options. -/
def primeOptions (options : Option NumberValidationOptions) :
    NumberValidationOptions :=
  { options.getD {} with
      allowNegative := some (some false), allowZero := some (some false) }

/-- Trial-division loop of `isPrime`: tests the odd divisors `i, i + 2, …`
while `i ≤ √n` (the source compares `i <= Math.sqrt(num)`; `i * i ≤ n` is
the same bound on integers, up to one extra iteration at a non-divisor when
the correctly rounded square root lands just above an integer). -/
def oddLoop (n i : ℕ) : Bool :=
  if _h : i * i ≤ n then
    if n % i = 0 then false else oddLoop n (i + 2)
  else true
  termination_by n + 1 - i
  decreasing_by
    rcases Nat.eq_zero_or_pos i with h0 | h1
    · omega
    · have hle : i ≤ i * i := Nat.le_mul_of_pos_left i h1
      omega

/-- The `isPrime` operation. -/
def isPrime (v : JSVal) (options : Option NumberValidationOptions) :
    Except String Bool := do
  isNumber v (some (primeOptions options))
  let n ← asNumber v
  if ¬ n.isInteger then .error "Prime check is only defined for integers"
  else
    match n with
    | .fin q =>
      let m := q.num.toNat
      if m = 1 then .ok false
      else if m = 2 then .ok true
      else if m % 2 = 0 then .ok false
      else .ok (oddLoop m 3)
    | _ => .ok false

/-- Validate-and-accumulate loop of `sum`. -/
def sumFold (options : Option NumberValidationOptions) :
    List JSNum → JSNum → Except String JSNum
  | [], acc => .ok acc
  | x :: xs, acc => do
    isNumber (.num x) options
    sumFold options xs (jsAdd acc x)

/-- The `sum` operation. -/
def sum (v : JSVal) (options : Option NumberValidationOptions) :
    Except String JSNum :=
  match v with
  | .arr xs =>
    if xs = [] then .error "Array cannot be empty"
    else sumFold options xs (.fin 0)
  | _ => .error "Input must be an array"

/-- The `average` operation (re-checks the array, then divides the re-thrown
`sum` by the length). -/
def average (v : JSVal) (options : Option NumberValidationOptions) :
    Except String JSNum :=
  match v with
  | .arr xs =>
    if xs = [] then .error "Array cannot be empty"
    else match sum (.arr xs) options with
      | .error e => .error e
      | .ok s => .ok (jsDiv s (.fin xs.length))
  | _ => .error "Input must be an array"

/-- Validate-and-compare loop of `min`. -/
def minFold (options : Option NumberValidationOptions) :
    List JSNum → JSNum → Except String JSNum
  | [], acc => .ok acc
  | x :: xs, acc => do
    isNumber (.num x) options
    minFold options xs (if jsLt x acc then x else acc)

/-- The `min` operation (the first element seeds the accumulator and is also
validated by the loop). -/
def min (v : JSVal) (options : Option NumberValidationOptions) :
    Except String JSNum :=
  match v with
  | .arr (x :: xs) => minFold options (x :: xs) x
  | .arr [] => .error "Array cannot be empty"
  | _ => .error "Input must be an array"

/-- Validate-and-compare loop of `max`. -/
def maxFold (options : Option NumberValidationOptions) :
    List JSNum → JSNum → Except String JSNum
  | [], acc => .ok acc
  | x :: xs, acc => do
    isNumber (.num x) options
    maxFold options xs (if jsGt x acc then x else acc)

/-- The `max` operation. -/
def max (v : JSVal) (options : Option NumberValidationOptions) :
    Except String JSNum :=
  match v with
  | .arr (x :: xs) => maxFold options (x :: xs) x
  | .arr [] => .error "Array cannot be empty"
  | _ => .error "Input must be an array"

/-- Digit string of `toFixed` for a non-negative finite value `q = a / b`:
the integer `n` closest to `q * 10^f`, ties toward the larger — computed as
`⌊(2 a 10^f + b) / (2 b)⌋` in plain integer arithmetic, which equals
`⌊q * 10^f + 1/2⌋` — then the digits with a decimal point `f` places from
the right. -/
def fixedReprNN (q : ℚ) (f : ℕ) : String :=
  let n := ((2 * q.num * intPow10 f + q.den).fdiv (2 * q.den)).toNat
  if f = 0 then natRepr n
  else
    let ds := natDigits n
    let ds := List.replicate (f + 1 - ds.length) '0' ++ ds
    String.mk (ds.take (ds.length - f)) ++ "." ++
      String.mk (ds.drop (ds.length - f))

/-- `Number.prototype.toFixed` for the magnitudes the claims exercise
(|value| < 10^21, i.e. `|num| < 10^21 * den`; beyond that JavaScript falls
back to plain number-to-string conversion). -/
def fixedRepr (q : ℚ) (f : ℕ) : String :=
  if intPow10 21 * (q.den : ℤ) ≤ (q.num.natAbs : ℤ) then ratRepr q
  else if q < 0 then "-" ++ fixedReprNN (-q) f
  else fixedReprNN q f

/-- The `toFixed` operation (the `decimals` parameter defaults to `0`). -/
def toFixed (v : JSVal) (decimals : Option ℚ)
    (options : Option NumberValidationOptions) : Except String String := do
  isNumber v options
  let d := decimals.getD 0
  if ¬ (d.den = 1 ∧ 0 ≤ d ∧ d ≤ 20) then
    .error "Decimals must be an integer between 0 and 20"
  else do
    let n ← asNumber v
    match n with
    | .fin q => .ok (fixedRepr q d.num.toNat)
    | other => .ok (jsNumToString other)

/-- Digit predicate of the numeric literal grammar. -/
def isDigitChar (c : Char) : Bool := '0' ≤ c ∧ c ≤ '9'

/-- Numeric value of a digit string (most significant first). -/
def digitsToNat (ds : List Char) : ℕ :=
  ds.foldl (fun a c => 10 * a + (c.toNat - 48)) 0

/-- Parser for the sign-and-decimal-digits fragment of the JavaScript
numeric-literal grammar (`[+-] digits [. digits]`); `none` models NaN.
Exponent, hexadecimal, octal and binary forms are outside what any claim
feeds to `Number(…)` and are not modelled. -/
def parseDecimal (cs : List Char) : Option ℚ :=
  let signed : Bool × List Char :=
    match cs with
    | [] => (false, [])
    | c :: r =>
      if c = '-' then (true, r)
      else if c = '+' then (false, r)
      else (false, cs)
  let intPart := signed.2.takeWhile isDigitChar
  let rest := signed.2.dropWhile isDigitChar
  let value : Option ℚ :=
    match rest with
    | [] => if intPart = [] then none else some (digitsToNat intPart)
    | c :: fr =>
      if c = '.' then
        let frPart := fr.takeWhile isDigitChar
        if fr.dropWhile isDigitChar ≠ [] then none
        else if intPart = [] ∧ frPart = [] then none
        else some ((digitsToNat intPart : ℚ) +
          (digitsToNat frPart : ℚ) / pow10 frPart.length)
      else none
  value.map fun q => if signed.1 then -q else q

/-- The `Number(…)` conversion on strings (trim, empty string is zero, the
`Infinity` keywords, otherwise the decimal literal grammar or NaN). -/
def jsToNumber (s : String) : JSNum :=
  let t := jsTrimList s.data
  if t = [] then .fin 0
  else if t = "Infinity".data ∨ t = "+Infinity".data then .inf
  else if t = "-Infinity".data then .negInf
  else match parseDecimal t with
    | some q => .fin q
    | none => .nan

/-- The `parseNumber` operation. -/
def parseNumber (v : JSVal) (options : Option NumberValidationOptions) :
    Except String JSNum :=
  match v with
  | .str s =>
    if (jsTrimList s.data).length = 0 then .error "String cannot be empty"
    else
      let n := jsToNumber s
      if n.isNaN then .error "String cannot be converted to a valid number"
      else do
        isNumber (.num n) options
        return n
  | _ => .error "Input must be a string"

end Num

/-- Decidable equality for `Except`, so that concrete outcomes can be settled
by `decide`. -/
instance {ε α : Type} [DecidableEq ε] [DecidableEq α] :
    DecidableEq (Except ε α) := fun a b =>
  match a, b with
  | .error x, .error y =>
    if h : x = y then .isTrue (by rw [h])
    else .isFalse (by intro hc; injection hc; contradiction)
  | .error _, .ok _ => .isFalse (by intro hc; exact Except.noConfusion hc)
  | .ok _, .error _ => .isFalse (by intro hc; exact Except.noConfusion hc)
  | .ok x, .ok y =>
    if h : x = y then .isTrue (by rw [h])
    else .isFalse (by intro hc; injection hc; contradiction)

/-- Outcome of one validation check, following the spec's description of the
pipeline: a check passes, fails with a descriptor, or (the allow-NaN and
allow-infinity policies) accepts the value outright, bypassing the remaining
checks. -/
inductive CheckResult where
  | pass
  | accept
  | failed (msg : String)
  deriving DecidableEq, Repr

/-- Short-circuiting run of an ordered list of checks, following the spec's
words: the first non-passing check decides the outcome. -/
def runChecks {α : Type} : List (α → CheckResult) → α → Except String Unit
  | [], _ => .ok ()
  | c :: cs, v =>
    match c v with
    | .pass => runChecks cs v
    | .accept => .ok ()
    | .failed m => .error m

namespace Num

/-- Presence check of the numeric pipeline. -/
def presenceCheck (v : JSVal) : CheckResult :=
  if v = .nullV ∨ v = .undef then .failed "Number is required" else .pass

/-- Type check of the numeric pipeline. -/
def typeCheck (v : JSVal) : CheckResult :=
  match v with
  | .num _ => .pass
  | .nullV => .pass
  | .undef => .pass
  | _ => .failed "Type must be a number"

/-- Not-a-number policy (with the allow-NaN early acceptance). -/
def nanCheck (opts : MergedNumberOptions) (v : JSVal) : CheckResult :=
  match v with
  | .num n =>
    if ¬ truthy opts.allowNaN ∧ n.isNaN then .failed "Number cannot be NaN"
    else if truthy opts.allowNaN ∧ n.isNaN then .accept
    else .pass
  | _ => .pass

/-- Infinity policy (with the allow-infinity early acceptance). -/
def infinityCheck (opts : MergedNumberOptions) (v : JSVal) : CheckResult :=
  match v with
  | .num n =>
    if ¬ truthy opts.allowInfinity ∧ ¬ n.isFinite then
      .failed "Number cannot be Infinity or -Infinity"
    else if truthy opts.allowInfinity ∧ ¬ n.isFinite then .accept
    else .pass
  | _ => .pass

/-- Zero policy. -/
def zeroCheck (opts : MergedNumberOptions) (v : JSVal) : CheckResult :=
  match v with
  | .num n =>
    if ¬ truthy opts.allowZero ∧ jsEq n (.fin 0) then
      .failed "Number cannot be zero"
    else .pass
  | _ => .pass

/-- Sign policy. -/
def signCheck (opts : MergedNumberOptions) (v : JSVal) : CheckResult :=
  match v with
  | .num n =>
    if ¬ truthy opts.allowNegative ∧ jsLt n (.fin 0) then
      .failed "Number cannot be negative"
    else .pass
  | _ => .pass

/-- Minimum-bound check of the pipeline presentation. -/
def minBoundCheck (opts : MergedNumberOptions) (v : JSVal) : CheckResult :=
  match v, opts.min with
  | .num n, some m =>
    if jsLt n (.fin m) then .failed (minMsg n m) else .pass
  | _, _ => .pass

/-- Maximum-bound check of the pipeline presentation. -/
def maxBoundCheck (opts : MergedNumberOptions) (v : JSVal) : CheckResult :=
  match v, opts.max with
  | .num n, some m =>
    if jsGt n (.fin m) then .failed (maxMsg n m) else .pass
  | _, _ => .pass

/-- The numeric domain's declared check order: presence, type, NaN policy,
infinity policy, zero policy, sign policy, minimum bound, maximum bound. -/
def numberChecks (opts : MergedNumberOptions) : List (JSVal → CheckResult) :=
  [presenceCheck, typeCheck, nanCheck opts, infinityCheck opts,
    zeroCheck opts, signCheck opts, minBoundCheck opts, maxBoundCheck opts]

end Num

namespace Str

/-- Presence check of the textual pipeline. -/
def presenceCheck (v : JSVal) : CheckResult :=
  if v = .nullV ∨ v = .undef then .failed "String is required" else .pass

/-- Type check of the textual pipeline. -/
def typeCheck (v : JSVal) : CheckResult :=
  match v with
  | .str _ => .pass
  | .nullV => .pass
  | .undef => .pass
  | _ => .failed "Type must be a string"

/-- Emptiness check. -/
def emptyCheck (v : JSVal) : CheckResult :=
  match v with
  | .str s => if s.data.length = 0 then .failed "String must not be empty" else .pass
  | _ => .pass

/-- Whitespace-only policy. -/
def whitespaceCheck (opts : MergedStringOptions) (v : JSVal) : CheckResult :=
  match v with
  | .str s =>
    if ¬ truthy opts.allowWhitespaceOnly ∧ (jsTrimList s.data).length = 0 then
      .failed "String must not be whitespace-only"
    else .pass
  | _ => .pass

/-- Maximum-length check of the pipeline presentation. -/
def maxLengthCheck (opts : MergedStringOptions) (v : JSVal) : CheckResult :=
  match v, opts.maxLength with
  | .str s, some m =>
    if m ≠ 0 ∧ (s.data.length : ℤ) > m then .failed (lenMsg s.data.length m)
    else .pass
  | _, _ => .pass

/-- Control-character policy. -/
def controlCheck (opts : MergedStringOptions) (v : JSVal) : CheckResult :=
  match v with
  | .str s =>
    if ¬ truthy opts.allowSpecialChars ∧ s.data.any isControlChar then
      .failed "String contains invalid control characters"
    else .pass
  | _ => .pass

/-- The textual domain's declared check order: presence, type, emptiness,
whitespace-only, maximum length, control characters. -/
def stringChecks (opts : MergedStringOptions) : List (JSVal → CheckResult) :=
  [presenceCheck, typeCheck, emptyCheck, whitespaceCheck opts,
    maxLengthCheck opts, controlCheck opts]

end Str

/-- Mock of a transport response: the status flag and the outcome of decoding
the body (`.json()` as a resolved or rejected promise). -/
structure MockResponse (E J : Type) where
  ok : Bool
  body : Except E J

/-- The `safeFetch` adapter over an abstract transport: `transport` is the
settled outcome of `fetch(url, options)`; the `Except` error channel of the
result models a raised (not captured) failure. -/
def safeFetch {E J : Type} (transport : Except E (MockResponse E J))
    (returnJson : Bool) : Except E (J ⊕ MockResponse E J) :=
  match transport with
  | .error e => .error e
  | .ok data =>
    if ¬ data.ok then .ok (.inr data)
    else if returnJson then
      match data.body with
      | .error e => .error e
      | .ok j => .ok (.inl j)
    else .ok (.inr data)

/-- ASCII lower-casing of one character, the fragment of
`String.prototype.toLowerCase` the claims exercise. -/
def toLowerChar (c : Char) : Char :=
  if 65 ≤ c.toNat ∧ c.toNat ≤ 90 then Char.ofNat (c.toNat + 32) else c

/-- ASCII upper-casing of one character, the fragment of
`String.prototype.toUpperCase` the claims exercise. -/
def toUpperChar (c : Char) : Char :=
  if 97 ≤ c.toNat ∧ c.toNat ≤ 122 then Char.ofNat (c.toNat - 32) else c

/-- The regular-expression word-character class `\w` = `[A-Za-z0-9_]`. -/
def isWordChar (c : Char) : Bool :=
  ('a' ≤ c ∧ c ≤ 'z') ∨ ('A' ≤ c ∧ c ≤ 'Z') ∨ ('0' ≤ c ∧ c ≤ '9') ∨ c = '_'

/-- Lower-case every character (`.toLowerCase()`). -/
def lowerAll (l : List Char) : List Char := l.map toLowerChar

namespace Str

/-- Test of the regular expression `^[a-z_]+$` used by `snakeCase`. -/
def matchesSnake (l : List Char) : Bool :=
  l ≠ [] ∧ l.all fun c => ('a' ≤ c ∧ c ≤ 'z') ∨ c = '_'

/-- Test of the regular expression `^[a-z-]+$` used by `kebabCase`. -/
def matchesKebab (l : List Char) : Bool :=
  l ≠ [] ∧ l.all fun c => ('a' ≤ c ∧ c ≤ 'z') ∨ c = '-'

/-- Replacement `str.replace(/([A-Z])/g, sep + "$1")`: the separator is
inserted before every upper-case letter. -/
def insertBeforeUpper (sep : Char) : List Char → List Char
  | [] => []
  | c :: cs =>
    if 'A' ≤ c ∧ c ≤ 'Z' then sep :: c :: insertBeforeUpper sep cs
    else c :: insertBeforeUpper sep cs

/-- Post-validation computation of `snakeCase`. -/
def snakeBody (l : List Char) : List Char :=
  if matchesSnake l then l else lowerAll (insertBeforeUpper '_' l)

/-- Post-validation computation of `kebabCase`. -/
def kebabBody (l : List Char) : List Char :=
  if matchesKebab l then l else lowerAll (insertBeforeUpper '-' l)

/-- Replacement `str.replace(/^_+/, "")`. -/
def stripLeadingUnderscores (l : List Char) : List Char :=
  l.dropWhile (· = '_')

/-- Replacement `str.replace(/_/g, " ")`. -/
def underscoresToSpaces (l : List Char) : List Char :=
  l.map fun c => if c = '_' then ' ' else c

/-- Replacement `str.replace(/\b\w/g, toUpperCase)`: upper-case every word
character not preceded by a word character; the flag records whether the
previous character was a word character. -/
def wordCap (prev : Bool) : List Char → List Char
  | [] => []
  | c :: cs =>
    (if isWordChar c ∧ ¬ prev then toUpperChar c else c) ::
      wordCap (isWordChar c) cs

/-- Replacement `str.replace(/\s+/g, "")`. -/
def removeSpaces (l : List Char) : List Char := l.filter fun c => ¬ isJsSpace c

/-- Lower-casing of the first character
(`result.charAt(0).toLowerCase() + result.slice(1)`). -/
def lcFirst : List Char → List Char
  | [] => []
  | c :: cs => toLowerChar c :: cs

/-- Post-validation computation of `camelCase` (the underscore-only guard
included). -/
def camelBody (l : List Char) : Except String (List Char) :=
  let trimmed := stripLeadingUnderscores l
  if trimmed = [] then .error "String contains only underscores"
  else .ok (lcFirst (removeSpaces (wordCap false (underscoresToSpaces trimmed))))

/-- The `snakeCase` operation. -/
def snakeCase (v : JSVal) (options : Option StringValidationOptions) :
    Except String String := do
  isString v options
  let s ← asString v
  return String.mk (snakeBody s.data)

/-- The `kebabCase` operation. -/
def kebabCase (v : JSVal) (options : Option StringValidationOptions) :
    Except String String := do
  isString v options
  let s ← asString v
  return String.mk (kebabBody s.data)

/-- The `camelCase` operation. -/
def camelCase (v : JSVal) (options : Option StringValidationOptions) :
    Except String String := do
  isString v options
  let s ← asString v
  let r ← camelBody s.data
  return String.mk r

end Str

/-! ### Theorems -/

/-- A failing check after a prefix of passing checks decides the run: later
checks are never reached. -/
theorem runChecks_first_failure {α : Type} (pre : List (α → CheckResult))
    (c : α → CheckResult) (rest : List (α → CheckResult)) (v : α) (m : String)
    (hpre : ∀ p ∈ pre, p v = .pass) (hc : c v = .failed m) :
    runChecks (pre ++ c :: rest) v = .error m := by
  induction pre with
  | nil => simp [runChecks, hc]
  | cons p ps ih =>
    have hp : p v = .pass := hpre p (by simp)
    simp only [List.cons_append, runChecks, hp]
    exact ih fun q hq => hpre q (by simp [hq])

/-- The tail of the numeric pipeline (minimum then maximum bound) agrees with
its check-list presentation. -/
theorem minmax_eq_runChecks (n : JSNum) (opts : Num.MergedNumberOptions) :
    (do Num.minCheck n opts.min; Num.maxCheck n opts.max) =
      runChecks [Num.minBoundCheck opts, Num.maxBoundCheck opts] (.num n) := by
  rcases hmn : opts.min with _ | m <;> rcases hmx : opts.max with _ | mx <;>
    simp only [Num.minCheck, Num.maxCheck, runChecks, Num.minBoundCheck,
      Num.maxBoundCheck, hmn, hmx, bind, Except.bind] <;>
    first
      | rfl
      | (split_ifs <;> simp_all [bind, Except.bind, runChecks])

/-- The numeric validator is exactly the ordered, short-circuiting run of the
declared numeric checks. -/
theorem isNumber_eq_runChecks (v : JSVal)
    (options : Option Num.NumberValidationOptions) :
    Num.isNumber v options =
      runChecks
        (Num.numberChecks (Num.mergeOptions (options.getD Num.DEFAULT_OPTIONS)))
        v := by
  cases v with
  | num n =>
    have h1 : ¬ (JSVal.num n = JSVal.nullV ∨ JSVal.num n = JSVal.undef) := by
      simp
    simp only [Num.isNumber, Num.numberChecks, runChecks, Num.presenceCheck,
      Num.typeCheck, Num.nanCheck, Num.infinityCheck, Num.zeroCheck,
      Num.signCheck, if_neg h1]
    split_ifs <;>
      first
      | rfl
      | exact minmax_eq_runChecks n _
  | str s => rfl
  | nullV => rfl
  | undef => rfl
  | bool b => rfl
  | arr xs => rfl

/-- The textual validator is exactly the ordered, short-circuiting run of the
declared textual checks. -/
theorem isString_eq_runChecks (v : JSVal)
    (options : Option Str.StringValidationOptions) :
    Str.isString v options =
      runChecks
        (Str.stringChecks (Str.mergeOptions (options.getD Str.DEFAULT_OPTIONS)))
        v := by
  cases v with
  | str s =>
    rcases hml : (Str.mergeOptions (options.getD Str.DEFAULT_OPTIONS)).maxLength
        with _ | m <;>
      simp [Str.isString, Str.stringChecks, runChecks, Str.presenceCheck,
        Str.typeCheck, Str.emptyCheck, Str.whitespaceCheck, Str.maxLengthCheck,
        Str.controlCheck, Str.maxLenCheck, hml, bind, Except.bind] <;>
      split_ifs <;> simp_all [runChecks, bind, Except.bind]
  | num n => rfl
  | nullV => rfl
  | undef => rfl
  | bool b => rfl
  | arr xs => rfl

/-- Under allow-NaN configuration a NaN candidate is accepted outright. -/
theorem isNumber_nan_bypass (options : Option Num.NumberValidationOptions)
    (h : truthy (Num.mergeOptions (options.getD Num.DEFAULT_OPTIONS)).allowNaN
      = true) :
    Num.isNumber (.num .nan) options = .ok () := by
  simp [Num.isNumber, h, JSNum.isNaN]

/-- Under allow-infinity configuration an infinite candidate is accepted
outright. -/
theorem isNumber_inf_bypass (options : Option Num.NumberValidationOptions)
    (n : JSNum)
    (h : truthy
      (Num.mergeOptions (options.getD Num.DEFAULT_OPTIONS)).allowInfinity
      = true)
    (hfin : n.isFinite = false) (hnan : n.isNaN = false) :
    Num.isNumber (.num n) options = .ok () := by
  simp [Num.isNumber, h, hfin, hnan]

/-- C1: each domain's validation evaluates the declared checks in their fixed
order (numeric: presence, type, NaN policy, infinity policy, zero policy,
sign policy, minimum bound, maximum bound; textual: presence, type,
emptiness, whitespace-only, maximum length, control characters), halts at the
first failing check with that check's failure descriptor, never evaluating a
later check, and accepts immediately — skipping the zero/sign/range checks —
when the configuration allows NaN (resp. infinity) and the candidate is NaN
(resp. infinite). -/
theorem c1_pipeline_order_and_short_circuit :
    (∀ (v : JSVal) (options : Option Num.NumberValidationOptions),
      Num.isNumber v options =
        runChecks
          (Num.numberChecks
            (Num.mergeOptions (options.getD Num.DEFAULT_OPTIONS))) v) ∧
    (∀ (v : JSVal) (options : Option Str.StringValidationOptions),
      Str.isString v options =
        runChecks
          (Str.stringChecks
            (Str.mergeOptions (options.getD Str.DEFAULT_OPTIONS))) v) ∧
    (∀ (α : Type) (pre rest : List (α → CheckResult)) (c : α → CheckResult)
      (v : α) (m : String),
      (∀ p ∈ pre, p v = .pass) → c v = .failed m →
        runChecks (pre ++ c :: rest) v = .error m) ∧
    (∀ options : Option Num.NumberValidationOptions,
      truthy (Num.mergeOptions (options.getD Num.DEFAULT_OPTIONS)).allowNaN
        = true →
      Num.isNumber (.num .nan) options = .ok ()) ∧
    (∀ (options : Option Num.NumberValidationOptions) (n : JSNum),
      truthy
        (Num.mergeOptions (options.getD Num.DEFAULT_OPTIONS)).allowInfinity
        = true →
      n.isFinite = false → n.isNaN = false →
      Num.isNumber (.num n) options = .ok ()) :=
  ⟨isNumber_eq_runChecks, isString_eq_runChecks,
    fun _ pre rest c v m h1 h2 => runChecks_first_failure pre c rest v m h1 h2,
    isNumber_nan_bypass, isNumber_inf_bypass⟩

/-- Witness for C1 at concrete inputs. -/
theorem c1_pipeline_order_and_short_circuit_witness :
    Num.isNumber (.num (.fin 1)) none =
      runChecks
        (Num.numberChecks
          (Num.mergeOptions
            ((none : Option Num.NumberValidationOptions).getD
              Num.DEFAULT_OPTIONS))) (.num (.fin 1)) ∧
    Str.isString (.str "ab") none =
      runChecks
        (Str.stringChecks
          (Str.mergeOptions
            ((none : Option Str.StringValidationOptions).getD
              Str.DEFAULT_OPTIONS))) (.str "ab") ∧
    runChecks ([] ++ Num.presenceCheck ::
        [Num.typeCheck,
          Num.nanCheck (Num.mergeOptions Num.DEFAULT_OPTIONS)]) JSVal.nullV =
      .error "Number is required" ∧
    Num.isNumber (.num .nan) (some { allowNaN := some (some true) }) =
      .ok () ∧
    Num.isNumber (.num .inf) (some { allowInfinity := some (some true) }) =
      .ok () :=
  ⟨c1_pipeline_order_and_short_circuit.1 (.num (.fin 1)) none,
    c1_pipeline_order_and_short_circuit.2.1 (.str "ab") none,
    c1_pipeline_order_and_short_circuit.2.2.1 JSVal []
      [Num.typeCheck, Num.nanCheck (Num.mergeOptions Num.DEFAULT_OPTIONS)]
      Num.presenceCheck JSVal.nullV "Number is required"
      (by simp) (by decide),
    c1_pipeline_order_and_short_circuit.2.2.2.1
      (some { allowNaN := some (some true) }) (by decide),
    c1_pipeline_order_and_short_circuit.2.2.2.2
      (some { allowInfinity := some (some true) }) .inf (by decide)
      (by decide) (by decide)⟩

/-- C2: the options merge is a flat last-write-wins overlay: for every key
present in the override object the override's value is used — including an
explicit `undefined`, which unsets the domain default (an explicit
`min: undefined` skips the minimum-bound check; an explicit
`allowNegative: undefined` makes negative numbers rejected although the
default allows them) — and for every absent key the default's value is
used. -/
theorem c2_flat_override_merge :
    (∀ (o : Num.NumberValidationOptions) (x : Option ℚ),
      o.min = some x → (Num.mergeOptions o).min = x) ∧
    (∀ o : Num.NumberValidationOptions,
      o.min = none →
        (Num.mergeOptions o).min = some (-Num.MAX_SAFE_INTEGER)) ∧
    (∀ (o : Num.NumberValidationOptions) (x : Option ℚ),
      o.max = some x → (Num.mergeOptions o).max = x) ∧
    (∀ o : Num.NumberValidationOptions,
      o.max = none → (Num.mergeOptions o).max = some Num.MAX_SAFE_INTEGER) ∧
    (∀ (o : Num.NumberValidationOptions) (x : Option Bool),
      o.allowNegative = some x → (Num.mergeOptions o).allowNegative = x) ∧
    (∀ o : Num.NumberValidationOptions,
      o.allowNegative = none →
        (Num.mergeOptions o).allowNegative = some true) ∧
    (∀ (o : Num.NumberValidationOptions) (x : Option Bool),
      o.allowZero = some x → (Num.mergeOptions o).allowZero = x) ∧
    (∀ o : Num.NumberValidationOptions,
      o.allowZero = none → (Num.mergeOptions o).allowZero = some true) ∧
    (∀ (o : Num.NumberValidationOptions) (x : Option Bool),
      o.allowInfinity = some x → (Num.mergeOptions o).allowInfinity = x) ∧
    (∀ o : Num.NumberValidationOptions,
      o.allowInfinity = none →
        (Num.mergeOptions o).allowInfinity = some false) ∧
    (∀ (o : Num.NumberValidationOptions) (x : Option Bool),
      o.allowNaN = some x → (Num.mergeOptions o).allowNaN = x) ∧
    (∀ o : Num.NumberValidationOptions,
      o.allowNaN = none → (Num.mergeOptions o).allowNaN = some false) ∧
    (∀ (o : Str.StringValidationOptions) (x : Option ℤ),
      o.maxLength = some x → (Str.mergeOptions o).maxLength = x) ∧
    (∀ o : Str.StringValidationOptions,
      o.maxLength = none → (Str.mergeOptions o).maxLength = some 10000) ∧
    (∀ (o : Str.StringValidationOptions) (x : Option Bool),
      o.allowWhitespaceOnly = some x →
        (Str.mergeOptions o).allowWhitespaceOnly = x) ∧
    (∀ o : Str.StringValidationOptions,
      o.allowWhitespaceOnly = none →
        (Str.mergeOptions o).allowWhitespaceOnly = some false) ∧
    (∀ (o : Str.StringValidationOptions) (x : Option Bool),
      o.allowSpecialChars = some x →
        (Str.mergeOptions o).allowSpecialChars = x) ∧
    (∀ o : Str.StringValidationOptions,
      o.allowSpecialChars = none →
        (Str.mergeOptions o).allowSpecialChars = some true) ∧
    Num.isNumber (.num (.fin (-(2 : ℚ) ^ 60))) (some { min := some none }) =
      .ok () ∧
    Num.isNumber (.num (.fin (-(2 : ℚ) ^ 60))) none =
      .error (Num.minMsg (.fin (-(2 : ℚ) ^ 60)) (-Num.MAX_SAFE_INTEGER)) ∧
    Num.isNumber (.num (.fin (-1))) (some { allowNegative := some none }) =
      .error "Number cannot be negative" ∧
    Num.isNumber (.num (.fin (-1))) none = .ok () := by
  refine ⟨?_, ?_, ?_, ?_, ?_, ?_, ?_, ?_, ?_, ?_, ?_, ?_, ?_, ?_, ?_, ?_,
    ?_, ?_, ?_, ?_, ?_, ?_⟩ <;>
    first
      | (intro o x h; simp [Num.mergeOptions, Str.mergeOptions, overlay, h])
      | (intro o h;
          simp [Num.mergeOptions, Str.mergeOptions, overlay, h,
            Num.DEFAULT_OPTIONS, Str.DEFAULT_OPTIONS])
      | decide

/-- Witness for C2 at concrete option objects. -/
theorem c2_flat_override_merge_witness :
    (Num.mergeOptions { min := some (some 5) }).min = some 5 ∧
    (Num.mergeOptions {}).min = some (-Num.MAX_SAFE_INTEGER) ∧
    (Str.mergeOptions { maxLength := some none }).maxLength = none :=
  ⟨c2_flat_override_merge.1 { min := some (some 5) } (some 5) rfl,
    c2_flat_override_merge.2.1 {} rfl,
    c2_flat_override_merge.2.2.2.2.2.2.2.2.2.2.2.2.1 { maxLength := some none }
      none rfl⟩

/-- C7: `safeFetch` raises (rather than capturing) a transport fault, returns
the raw response without decoding on a non-success status, decodes the body
and returns the decoded value when decoding is requested on a success
response (raising if decoding fails), and returns the raw response when
decoding is suppressed. -/
theorem c7_safeFetch_conventions :
    (∀ (E J : Type) (e : E) (returnJson : Bool),
      safeFetch (E := E) (J := J) (.error e) returnJson = .error e) ∧
    (∀ (E J : Type) (r : MockResponse E J) (returnJson : Bool),
      r.ok = false → safeFetch (.ok r) returnJson = .ok (.inr r)) ∧
    (∀ (E J : Type) (r : MockResponse E J) (j : J),
      r.ok = true → r.body = .ok j → safeFetch (.ok r) true = .ok (.inl j)) ∧
    (∀ (E J : Type) (r : MockResponse E J) (e : E),
      r.ok = true → r.body = .error e → safeFetch (.ok r) true = .error e) ∧
    (∀ (E J : Type) (r : MockResponse E J),
      r.ok = true → safeFetch (.ok r) false = .ok (.inr r)) := by
  refine ⟨fun E J e b => rfl, ?_, ?_, ?_, ?_⟩
  · intro E J r b hok
    simp [safeFetch, hok]
  · intro E J r j hok hbody
    simp [safeFetch, hok, hbody]
  · intro E J r e hok hbody
    simp [safeFetch, hok, hbody]
  · intro E J r hok
    simp [safeFetch, hok]

/-- Witness for C7 on concrete mock transports. -/
theorem c7_safeFetch_conventions_witness :
    safeFetch (E := String) (J := ℕ) (.error "boom") true = .error "boom" ∧
    safeFetch (E := String) (J := ℕ)
      (.ok { ok := false, body := .ok 7 }) true =
      .ok (.inr { ok := false, body := .ok 7 }) ∧
    safeFetch (E := String) (J := ℕ)
      (.ok { ok := true, body := .ok 7 }) true = .ok (.inl 7) ∧
    safeFetch (E := String) (J := ℕ)
      (.ok { ok := true, body := .error "bad json" }) true =
      .error "bad json" ∧
    safeFetch (E := String) (J := ℕ)
      (.ok { ok := true, body := .ok 7 }) false =
      .ok (.inr { ok := true, body := .ok 7 }) :=
  ⟨c7_safeFetch_conventions.1 String ℕ "boom" true,
    c7_safeFetch_conventions.2.1 String ℕ { ok := false, body := .ok 7 } true
      rfl,
    c7_safeFetch_conventions.2.2.1 String ℕ { ok := true, body := .ok 7 } 7
      rfl rfl,
    c7_safeFetch_conventions.2.2.2.1 String ℕ
      { ok := true, body := .error "bad json" } "bad json" rfl rfl,
    c7_safeFetch_conventions.2.2.2.2 String ℕ { ok := true, body := .ok 7 }
      rfl⟩

/-- C10: an explicit `maxLength: 0` in the textual configuration makes the
maximum-length check pass for every string, whatever its length — the
merged `maxLength` is `0` (neither the default `10000` nor a rejection of all
strings), and `0` being falsy skips the check entirely. -/
theorem c10_maxLength_zero_disables_check :
    (Str.mergeOptions { maxLength := some (some 0) }).maxLength = some 0 ∧
    (∀ s : String,
      s.data.length ≠ 0 → (jsTrimList s.data).length ≠ 0 →
      Str.isString (.str s) (some { maxLength := some (some 0) }) = .ok ()) ∧
    (∀ s : String,
      Str.maxLenCheck s.data.length
        (Str.mergeOptions { maxLength := some (some 0) }).maxLength =
        .ok ()) := by
  refine ⟨rfl, ?_, ?_⟩
  · intro s hne hws
    have hne2 : s.length ≠ 0 := hne
    simp [Str.isString, Str.mergeOptions, Str.DEFAULT_OPTIONS, overlay,
      truthy, Str.maxLenCheck, hne, hne2, hws, bind, Except.bind]
  · intro s
    simp [Str.maxLenCheck, Str.mergeOptions, Str.DEFAULT_OPTIONS, overlay]

/-- Witness for C10 at a concrete string. -/
theorem c10_maxLength_zero_disables_check_witness :
    Str.isString (.str "abc") (some { maxLength := some (some 0) }) =
      .ok () ∧
    Str.maxLenCheck ("abc" : String).data.length
      (Str.mergeOptions { maxLength := some (some 0) }).maxLength = .ok () :=
  ⟨c10_maxLength_zero_disables_check.2.1 "abc" (by decide) (by decide),
    c10_maxLength_zero_disables_check.2.2 "abc"⟩

/-- C9: on every input the numeric validator accepts, `isEven` returns
whether the remainder against two is strictly equal to zero and `isOdd`
returns its boolean negation; in particular with allow-NaN configuration a
NaN input gives `isEven = false` and `isOdd = true` (NaN % 2 is NaN, which is
not strictly equal to 0). -/
theorem c9_isEven_isOdd_complement :
    (∀ (n : JSNum) (options : Option Num.NumberValidationOptions),
      Num.isNumber (.num n) options = .ok () →
      Num.isEven (.num n) options = .ok (jsEq (jsMod2 n) (.fin 0)) ∧
      Num.isOdd (.num n) options = .ok (! jsEq (jsMod2 n) (.fin 0))) ∧
    (∀ options : Option Num.NumberValidationOptions,
      truthy (Num.mergeOptions (options.getD Num.DEFAULT_OPTIONS)).allowNaN
        = true →
      Num.isEven (.num .nan) options = .ok false ∧
      Num.isOdd (.num .nan) options = .ok true) := by
  constructor
  · intro n options h
    constructor <;>
      simp [Num.isEven, Num.isOdd, h, Num.asNumber, bind, Except.bind,
        pure, Except.pure]
  · intro options h
    have hv := isNumber_nan_bypass options h
    constructor <;>
      simp [Num.isEven, Num.isOdd, hv, Num.asNumber, bind, Except.bind,
        jsMod2, jsEq, pure, Except.pure]

/-- Witness for C9 at an even input and at NaN under allow-NaN. -/
theorem c9_isEven_isOdd_complement_witness :
    (Num.isEven (.num (.fin 4)) none = .ok (jsEq (jsMod2 (.fin 4)) (.fin 0)) ∧
      Num.isOdd (.num (.fin 4)) none =
        .ok (! jsEq (jsMod2 (.fin 4)) (.fin 0))) ∧
    (Num.isEven (.num .nan) (some { allowNaN := some (some true) }) =
        .ok false ∧
      Num.isOdd (.num .nan) (some { allowNaN := some (some true) }) =
        .ok true) :=
  ⟨c9_isEven_isOdd_complement.1 (.fin 4) none (by decide),
    c9_isEven_isOdd_complement.2 (some { allowNaN := some (some true) })
      (by decide)⟩

/-- The sum loop succeeds exactly when every element passes validation. -/
theorem sumFold_ok_iff (o : Option Num.NumberValidationOptions)
    (xs : List JSNum) (acc : JSNum) :
    (∃ s, Num.sumFold o xs acc = .ok s) ↔
      ∀ x ∈ xs, Num.isNumber (.num x) o = .ok () := by
  induction xs generalizing acc with
  | nil => simp [Num.sumFold]
  | cons x xs ih =>
    simp only [Num.sumFold, bind, Except.bind]
    cases h : Num.isNumber (.num x) o with
    | error e => simp [h]
    | ok u => cases u; simp [h, ih]

/-- The min loop succeeds exactly when every element passes validation. -/
theorem minFold_ok_iff (o : Option Num.NumberValidationOptions)
    (xs : List JSNum) (acc : JSNum) :
    (∃ s, Num.minFold o xs acc = .ok s) ↔
      ∀ x ∈ xs, Num.isNumber (.num x) o = .ok () := by
  induction xs generalizing acc with
  | nil => simp [Num.minFold]
  | cons x xs ih =>
    simp only [Num.minFold, bind, Except.bind]
    cases h : Num.isNumber (.num x) o with
    | error e => simp [h]
    | ok u => cases u; simp [h, ih]

/-- The max loop succeeds exactly when every element passes validation. -/
theorem maxFold_ok_iff (o : Option Num.NumberValidationOptions)
    (xs : List JSNum) (acc : JSNum) :
    (∃ s, Num.maxFold o xs acc = .ok s) ↔
      ∀ x ∈ xs, Num.isNumber (.num x) o = .ok () := by
  induction xs generalizing acc with
  | nil => simp [Num.maxFold]
  | cons x xs ih =>
    simp only [Num.maxFold, bind, Except.bind]
    cases h : Num.isNumber (.num x) o with
    | error e => simp [h]
    | ok u => cases u; simp [h, ih]

/-- C6: the aggregates reject non-arrays with "Input must be an array" and
the empty array with "Array cannot be empty"; each succeeds exactly when the
array is non-empty and every element passes numeric validation; and
`average` fails exactly as `sum` fails, succeeding with `sum`'s value divided
by the length. -/
theorem c6_aggregate_errors_and_average :
    (∀ (v : JSVal) (o : Option Num.NumberValidationOptions),
      (∀ xs, v ≠ .arr xs) →
      Num.sum v o = .error "Input must be an array" ∧
      Num.average v o = .error "Input must be an array" ∧
      Num.min v o = .error "Input must be an array" ∧
      Num.max v o = .error "Input must be an array") ∧
    (∀ o : Option Num.NumberValidationOptions,
      Num.sum (.arr []) o = .error "Array cannot be empty" ∧
      Num.average (.arr []) o = .error "Array cannot be empty" ∧
      Num.min (.arr []) o = .error "Array cannot be empty" ∧
      Num.max (.arr []) o = .error "Array cannot be empty") ∧
    (∀ (xs : List JSNum) (o : Option Num.NumberValidationOptions),
      ((∃ s, Num.sum (.arr xs) o = .ok s) ↔
        xs ≠ [] ∧ ∀ x ∈ xs, Num.isNumber (.num x) o = .ok ()) ∧
      ((∃ s, Num.min (.arr xs) o = .ok s) ↔
        xs ≠ [] ∧ ∀ x ∈ xs, Num.isNumber (.num x) o = .ok ()) ∧
      ((∃ s, Num.max (.arr xs) o = .ok s) ↔
        xs ≠ [] ∧ ∀ x ∈ xs, Num.isNumber (.num x) o = .ok ())) ∧
    (∀ (v : JSVal) (o : Option Num.NumberValidationOptions) (e : String),
      Num.average v o = .error e ↔ Num.sum v o = .error e) ∧
    (∀ (xs : List JSNum) (o : Option Num.NumberValidationOptions) (s : JSNum),
      Num.sum (.arr xs) o = .ok s →
      Num.average (.arr xs) o = .ok (jsDiv s (.fin xs.length))) := by
  refine ⟨?_, ?_, ?_, ?_, ?_⟩
  · intro v o h
    cases v <;>
      first
      | exact absurd rfl (h _)
      | exact ⟨rfl, rfl, rfl, rfl⟩
  · intro o
    exact ⟨rfl, rfl, rfl, rfl⟩
  · intro xs o
    refine ⟨?_, ?_, ?_⟩
    · cases xs with
      | nil => simp [Num.sum]
      | cons x xs => simpa [Num.sum] using sumFold_ok_iff o (x :: xs) (.fin 0)
    · cases xs with
      | nil => simp [Num.min]
      | cons x xs => simpa [Num.min] using minFold_ok_iff o (x :: xs) x
    · cases xs with
      | nil => simp [Num.max]
      | cons x xs => simpa [Num.max] using maxFold_ok_iff o (x :: xs) x
  · intro v o e
    cases v with
    | arr xs =>
      rcases xs with _ | ⟨x, xs⟩
      · simp [Num.average, Num.sum]
      · cases hs : Num.sum (.arr (x :: xs)) o with
        | error e2 => simp [Num.average, hs]
        | ok s => simp [Num.average, hs]
    | num n => simp [Num.average, Num.sum]
    | str s => simp [Num.average, Num.sum]
    | nullV => simp [Num.average, Num.sum]
    | undef => simp [Num.average, Num.sum]
    | bool b => simp [Num.average, Num.sum]
  · intro xs o s h
    have hne : xs ≠ [] := by
      intro h0
      subst h0
      simp [Num.sum] at h
    simp [Num.average, hne, h]

/-- Witness for C6 at concrete aggregates. -/
theorem c6_aggregate_errors_and_average_witness :
    Num.sum (.str "x") none = .error "Input must be an array" ∧
    Num.sum (.arr []) none = .error "Array cannot be empty" ∧
    (∃ s, Num.sum (.arr [.fin 1, .fin 2]) none = .ok s) ∧
    (∃ s, Num.average (.arr [.fin 1, .fin 2]) none =
      .ok (jsDiv s (.fin ([JSNum.fin 1, .fin 2].length)))) := by
  refine ⟨(c6_aggregate_errors_and_average.1 (.str "x") none
      (fun xs h => JSVal.noConfusion h)).1,
    (c6_aggregate_errors_and_average.2.1 none).1, ?_, ?_⟩
  · exact ((c6_aggregate_errors_and_average.2.2.1 [.fin 1, .fin 2] none).1).2
      ⟨by decide, by decide⟩
  · obtain ⟨s, hs⟩ :=
      ((c6_aggregate_errors_and_average.2.2.1 [.fin 1, .fin 2] none).1).2
        ⟨by decide, by decide⟩
    exact ⟨s, c6_aggregate_errors_and_average.2.2.2.2 [.fin 1, .fin 2] none
      s hs⟩

/-- Evaluation of the numeric validator on a finite value under the
factorial/fibonacci options built over an omitted caller configuration. -/
theorem isNumber_fin_seqDefault (q : ℚ) :
    Num.isNumber (.num (.fin q)) (some (Num.seqOptions none)) =
      (if q < 0 then .error "Number cannot be negative"
       else if Num.MAX_SAFE_INTEGER < q then
         .error (Num.maxMsg (.fin q) Num.MAX_SAFE_INTEGER)
       else .ok ()) := by
  have hM : (0 : ℚ) < Num.MAX_SAFE_INTEGER := by
    norm_num [Num.MAX_SAFE_INTEGER]
  by_cases hneg : q < 0
  · simp [Num.isNumber, Num.seqOptions, Num.mergeOptions, overlay,
      Num.DEFAULT_OPTIONS, truthy, JSNum.isNaN, JSNum.isFinite, jsEq, jsLt,
      jsGt, Num.minCheck, Num.maxCheck, bind, Except.bind, hneg]
  · have hmin : ¬ (q < -Num.MAX_SAFE_INTEGER) := by linarith
    by_cases hmax : Num.MAX_SAFE_INTEGER < q <;>
      simp [Num.isNumber, Num.seqOptions, Num.mergeOptions, overlay,
        Num.DEFAULT_OPTIONS, truthy, JSNum.isNaN, JSNum.isFinite, jsEq, jsLt,
        jsGt, Num.minCheck, Num.maxCheck, bind, Except.bind, hneg, hmin, hmax]

/-- Evaluation of the numeric validator on a finite value under the
`isPrime` options built over an omitted caller configuration. -/
theorem isNumber_fin_primeDefault (q : ℚ) :
    Num.isNumber (.num (.fin q)) (some (Num.primeOptions none)) =
      (if q = 0 then .error "Number cannot be zero"
       else if q < 0 then .error "Number cannot be negative"
       else if Num.MAX_SAFE_INTEGER < q then
         .error (Num.maxMsg (.fin q) Num.MAX_SAFE_INTEGER)
       else .ok ()) := by
  have hM : (0 : ℚ) < Num.MAX_SAFE_INTEGER := by
    norm_num [Num.MAX_SAFE_INTEGER]
  by_cases hz : q = 0
  · simp [Num.isNumber, Num.primeOptions, Num.mergeOptions, overlay,
      Num.DEFAULT_OPTIONS, truthy, JSNum.isNaN, JSNum.isFinite, jsEq, jsLt,
      jsGt, Num.minCheck, Num.maxCheck, bind, Except.bind, hz]
  · by_cases hneg : q < 0
    · simp [Num.isNumber, Num.primeOptions, Num.mergeOptions, overlay,
        Num.DEFAULT_OPTIONS, truthy, JSNum.isNaN, JSNum.isFinite, jsEq, jsLt,
        jsGt, Num.minCheck, Num.maxCheck, bind, Except.bind, hz, hneg]
    · have hmin : ¬ (q < -Num.MAX_SAFE_INTEGER) := by linarith
      by_cases hmax : Num.MAX_SAFE_INTEGER < q <;>
        simp [Num.isNumber, Num.primeOptions, Num.mergeOptions, overlay,
          Num.DEFAULT_OPTIONS, truthy, JSNum.isNaN, JSNum.isFinite, jsEq,
          jsLt, jsGt, Num.minCheck, Num.maxCheck, bind, Except.bind, hz,
          hneg, hmin, hmax]

/-- Evaluation of the numeric validator on a finite value under the default
configuration. -/
theorem isNumber_fin_default (q : ℚ) :
    Num.isNumber (.num (.fin q)) none =
      (if q < -Num.MAX_SAFE_INTEGER then
         .error (Num.minMsg (.fin q) (-Num.MAX_SAFE_INTEGER))
       else if Num.MAX_SAFE_INTEGER < q then
         .error (Num.maxMsg (.fin q) Num.MAX_SAFE_INTEGER)
       else .ok ()) := by
  by_cases hmin : q < -Num.MAX_SAFE_INTEGER
  · have hmax : ¬ (Num.MAX_SAFE_INTEGER < q) := by
      have : (0 : ℚ) < Num.MAX_SAFE_INTEGER := by
        norm_num [Num.MAX_SAFE_INTEGER]
      linarith
    simp [Num.isNumber, Num.mergeOptions, overlay, Num.DEFAULT_OPTIONS,
      truthy, JSNum.isNaN, JSNum.isFinite, jsEq, jsLt, jsGt, Num.minCheck,
      Num.maxCheck, bind, Except.bind, hmin, hmax]
  · by_cases hmax : Num.MAX_SAFE_INTEGER < q <;>
      simp [Num.isNumber, Num.mergeOptions, overlay, Num.DEFAULT_OPTIONS,
        truthy, JSNum.isNaN, JSNum.isFinite, jsEq, jsLt, jsGt, Num.minCheck,
        Num.maxCheck, bind, Except.bind, hmin, hmax]

/-- C4 counterexample: at the integer 2^53 (a positive integer above 170),
`factorial` fails with the maximum-bound failure of the validation pipeline,
not with the magnitude-cap failure the claim promises for every integer
above 170. -/
theorem c4_factorial_above_safe_counterexample :
    Num.factorial (.num (.fin 9007199254740992)) none =
      .error
        ("Number (9007199254740992) is greater than maximum allowed value" ++
          " (9007199254740991)") ∧
    ("Number (9007199254740992) is greater than maximum allowed value" ++
        " (9007199254740991)") ≠
      "Factorial result would be too large (max: 170)" := by
  constructor <;> decide

/-- C4 (amended): `factorial` succeeds on every integer from 0 to 170;
on integers above 170 up to `MAX_SAFE_INTEGER` it fails with the
magnitude-cap failure, and beyond the maximum bound with the maximum-bound
failure instead; `fibonacci` likewise with cap 78; both reject negative
inputs and (in-range) non-integer inputs with invalid-input failures, all
these failure descriptors being pairwise distinct. -/
theorem c4_factorial_fibonacci_bounds :
    (∀ n : ℕ, n ≤ 170 →
      ∃ v, Num.factorial (.num (.fin n)) none = .ok v) ∧
    (∀ n : ℕ, 170 < n → (n : ℚ) ≤ Num.MAX_SAFE_INTEGER →
      Num.factorial (.num (.fin n)) none =
        .error "Factorial result would be too large (max: 170)") ∧
    (∀ n : ℕ, Num.MAX_SAFE_INTEGER < (n : ℚ) →
      Num.factorial (.num (.fin n)) none =
        .error (Num.maxMsg (.fin n) Num.MAX_SAFE_INTEGER)) ∧
    (∀ (q : ℚ) (o : Option Num.NumberValidationOptions), q < 0 →
      Num.factorial (.num (.fin q)) o = .error "Number cannot be negative") ∧
    (∀ q : ℚ, 0 ≤ q → q ≤ Num.MAX_SAFE_INTEGER → q.den ≠ 1 →
      Num.factorial (.num (.fin q)) none =
        .error "Factorial is only defined for integers") ∧
    (∀ n : ℕ, n ≤ 78 →
      ∃ v, Num.fibonacci (.num (.fin n)) none = .ok v) ∧
    (∀ n : ℕ, 78 < n → (n : ℚ) ≤ Num.MAX_SAFE_INTEGER →
      Num.fibonacci (.num (.fin n)) none =
        .error "Fibonacci result would be too large (max: 78)") ∧
    (∀ n : ℕ, Num.MAX_SAFE_INTEGER < (n : ℚ) →
      Num.fibonacci (.num (.fin n)) none =
        .error (Num.maxMsg (.fin n) Num.MAX_SAFE_INTEGER)) ∧
    (∀ (q : ℚ) (o : Option Num.NumberValidationOptions), q < 0 →
      Num.fibonacci (.num (.fin q)) o = .error "Number cannot be negative") ∧
    (∀ q : ℚ, 0 ≤ q → q ≤ Num.MAX_SAFE_INTEGER → q.den ≠ 1 →
      Num.fibonacci (.num (.fin q)) none =
        .error "Fibonacci is only defined for integers") ∧
    ("Factorial result would be too large (max: 170)" ≠
        "Number cannot be negative" ∧
      "Factorial result would be too large (max: 170)" ≠
        "Factorial is only defined for integers" ∧
      "Fibonacci result would be too large (max: 78)" ≠
        "Number cannot be negative" ∧
      "Fibonacci result would be too large (max: 78)" ≠
        "Fibonacci is only defined for integers" ∧
      "Factorial is only defined for integers" ≠
        "Fibonacci is only defined for integers") := by
  have hM : (170 : ℚ) < Num.MAX_SAFE_INTEGER := by
    norm_num [Num.MAX_SAFE_INTEGER]
  refine ⟨?_, ?_, ?_, ?_, ?_, ?_, ?_, ?_, ?_, ?_, by decide⟩
  · intro n hn
    have h0 : ¬ ((n : ℚ) < 0) := not_lt.mpr (Nat.cast_nonneg n)
    have h170 : ¬ ((170 : ℚ) < (n : ℚ)) := by exact_mod_cast Nat.not_lt.mpr hn
    have hmax : ¬ (Num.MAX_SAFE_INTEGER < (n : ℚ)) := by
      push_neg at h170 ⊢
      linarith
    refine ⟨.fin (Num.factValue n : ℚ), ?_⟩
    simp [Num.factorial, isNumber_fin_seqDefault, h0, hmax, Num.asNumber,
      JSNum.isInteger, jsGt, jsLt, h170, bind, Except.bind, pure,
      Except.pure]
  · intro n hn hmax
    have h0 : ¬ ((n : ℚ) < 0) := not_lt.mpr (Nat.cast_nonneg n)
    have h170 : (170 : ℚ) < (n : ℚ) := by exact_mod_cast hn
    have hmax2 : ¬ (Num.MAX_SAFE_INTEGER < (n : ℚ)) := not_lt.mpr hmax
    simp [Num.factorial, isNumber_fin_seqDefault, h0, hmax2, Num.asNumber,
      JSNum.isInteger, jsGt, jsLt, h170, bind, Except.bind]
  · intro n hn
    have h0 : ¬ ((n : ℚ) < 0) := not_lt.mpr (Nat.cast_nonneg n)
    simp [Num.factorial, isNumber_fin_seqDefault, h0, hn, bind, Except.bind]
  · intro q o hq
    have hz : ¬ jsEq (JSNum.fin q) (.fin 0) = true := by
      simp [jsEq]
      intro h
      rw [h] at hq
      exact absurd hq (by norm_num)
    simp [Num.factorial, Num.isNumber, Num.seqOptions, Num.mergeOptions,
      overlay, Num.DEFAULT_OPTIONS, truthy, JSNum.isNaN, JSNum.isFinite,
      jsLt, hz, hq, bind, Except.bind]
  · intro q h0 hmax hden
    have h0x : ¬ (q < 0) := not_lt.mpr h0
    have hmax2 : ¬ (Num.MAX_SAFE_INTEGER < q) := not_lt.mpr hmax
    simp [Num.factorial, isNumber_fin_seqDefault, h0x, hmax2, Num.asNumber,
      JSNum.isInteger, hden, bind, Except.bind]
  · intro n hn
    have h0 : ¬ ((n : ℚ) < 0) := not_lt.mpr (Nat.cast_nonneg n)
    have h78 : ¬ ((78 : ℚ) < (n : ℚ)) := by exact_mod_cast Nat.not_lt.mpr hn
    have hmax : ¬ (Num.MAX_SAFE_INTEGER < (n : ℚ)) := by
      push_neg at h78 ⊢
      linarith
    refine ⟨.fin (Num.fibValue n : ℚ), ?_⟩
    simp [Num.fibonacci, isNumber_fin_seqDefault, h0, hmax, Num.asNumber,
      JSNum.isInteger, jsGt, jsLt, h78, bind, Except.bind, pure,
      Except.pure]
  · intro n hn hmax
    have h0 : ¬ ((n : ℚ) < 0) := not_lt.mpr (Nat.cast_nonneg n)
    have h78 : (78 : ℚ) < (n : ℚ) := by exact_mod_cast hn
    have hmax2 : ¬ (Num.MAX_SAFE_INTEGER < (n : ℚ)) := not_lt.mpr hmax
    simp [Num.fibonacci, isNumber_fin_seqDefault, h0, hmax2, Num.asNumber,
      JSNum.isInteger, jsGt, jsLt, h78, bind, Except.bind]
  · intro n hn
    have h0 : ¬ ((n : ℚ) < 0) := not_lt.mpr (Nat.cast_nonneg n)
    simp [Num.fibonacci, isNumber_fin_seqDefault, h0, hn, bind, Except.bind]
  · intro q o hq
    have hz : ¬ jsEq (JSNum.fin q) (.fin 0) = true := by
      simp [jsEq]
      intro h
      rw [h] at hq
      exact absurd hq (by norm_num)
    simp [Num.fibonacci, Num.isNumber, Num.seqOptions, Num.mergeOptions,
      overlay, Num.DEFAULT_OPTIONS, truthy, JSNum.isNaN, JSNum.isFinite,
      jsLt, hz, hq, bind, Except.bind]
  · intro q h0 hmax hden
    have h0x : ¬ (q < 0) := not_lt.mpr h0
    have hmax2 : ¬ (Num.MAX_SAFE_INTEGER < q) := not_lt.mpr hmax
    simp [Num.fibonacci, isNumber_fin_seqDefault, h0x, hmax2, Num.asNumber,
      JSNum.isInteger, hden, bind, Except.bind]

/-- Witness for C4 at the stated boundaries. -/
theorem c4_factorial_fibonacci_bounds_witness :
    (∃ v, Num.factorial (.num (.fin 170)) none = .ok v) ∧
    Num.factorial (.num (.fin 171)) none =
      .error "Factorial result would be too large (max: 170)" ∧
    (∃ v, Num.fibonacci (.num (.fin 78)) none = .ok v) ∧
    Num.fibonacci (.num (.fin 79)) none =
      .error "Fibonacci result would be too large (max: 78)" ∧
    Num.factorial (.num (.fin (-3))) none =
      .error "Number cannot be negative" :=
  ⟨by
      have h := c4_factorial_fibonacci_bounds.1 170 (by norm_num)
      simpa using h,
    by
      have h := c4_factorial_fibonacci_bounds.2.1 171 (by norm_num)
        (by norm_num [Num.MAX_SAFE_INTEGER])
      simpa using h,
    by
      have h := c4_factorial_fibonacci_bounds.2.2.2.2.2.1 78 (by norm_num)
      simpa using h,
    by
      have h := c4_factorial_fibonacci_bounds.2.2.2.2.2.2.1 79 (by norm_num)
        (by norm_num [Num.MAX_SAFE_INTEGER])
      simpa using h,
    c4_factorial_fibonacci_bounds.2.2.2.1 (-3) none (by norm_num)⟩

/-- The trial-division loop returns true exactly when no odd divisor at or
beyond its (odd) starting index reaches the square root. -/
theorem oddLoop_iff (n : ℕ) :
    ∀ (k i : ℕ), n + 1 - i ≤ k → 1 ≤ i → i % 2 = 1 →
      (Num.oddLoop n i = true ↔
        ∀ j, i ≤ j → j * j ≤ n → j % 2 = 1 → ¬ j ∣ n) := by
  intro k
  induction k with
  | zero =>
    intro i hk h1 hodd
    have hin : n + 1 ≤ i := by omega
    have hii : ¬ (i * i ≤ n) := by nlinarith
    rw [Num.oddLoop]
    simp only [hii, dite_false, dif_neg]
    constructor
    · intro _ j hij hjj hjodd
      have : i * i ≤ j * j := Nat.mul_le_mul hij hij
      omega
    · intro _
      trivial
  | succ k ih =>
    intro i hk h1 hodd
    rw [Num.oddLoop]
    by_cases hii : i * i ≤ n
    · simp only [hii, dite_true, dif_pos]
      by_cases hdvd : n % i = 0
      · simp only [hdvd, if_true, if_pos]
        constructor
        · intro h
          exact absurd h (by simp)
        · intro h
          exact absurd (Nat.dvd_of_mod_eq_zero hdvd)
            (h i le_rfl hii hodd)
      · simp only [hdvd, if_false, if_neg, not_false_iff]
        rw [ih (i + 2) (by omega) (by omega) (by omega)]
        constructor
        · intro h j hij hjj hjodd
          rcases Nat.lt_or_ge j (i + 2) with hlt | hge
          · have : j = i ∨ j = i + 1 := by omega
            rcases this with rfl | rfl
            · intro hdj
              obtain ⟨c, rfl⟩ := hdj
              exact hdvd (Nat.mul_mod_right _ c)
            · omega
          · exact h j hge hjj hjodd
        · intro h j hij hjj hjodd
          exact h j (by omega) hjj hjodd
    · simp only [hii, dite_false, dif_neg, not_false_iff]
      constructor
      · intro _ j hij hjj hjodd
        have : i * i ≤ j * j := Nat.mul_le_mul hij hij
        omega
      · intro _
        trivial

/-- For an odd number at least 3, the trial-division loop started at 3
decides primality. -/
theorem oddLoop_prime (n : ℕ) (h3 : 3 ≤ n) (hodd : n % 2 = 1) :
    (Num.oddLoop n 3 = true ↔ Nat.Prime n) := by
  rw [oddLoop_iff n (n + 1) 3 (by omega) (by omega) (by omega)]
  constructor
  · intro h
    by_contra hnp
    have hmf : Nat.minFac n ∣ n := Nat.minFac_dvd n
    have hmfp : (Nat.minFac n).Prime := Nat.minFac_prime (by omega)
    have hsq : Nat.minFac n ^ 2 ≤ n := Nat.minFac_sq_le_self (by omega) hnp
    rw [pow_two] at hsq
    have hmf2 : Nat.minFac n ≠ 2 := by
      intro h2
      rw [h2] at hmf
      rcases hmf with ⟨c, hc⟩
      omega
    have hmfodd : Nat.minFac n % 2 = 1 := by
      rcases Nat.mod_two_eq_zero_or_one (Nat.minFac n) with h0 | h1
      · have h2d : 2 ∣ Nat.minFac n := Nat.dvd_of_mod_eq_zero h0
        rcases hmfp.eq_one_or_self_of_dvd 2 h2d with h21 | h22
        · omega
        · exact absurd h22.symm hmf2
      · exact h1
    have h3mf : 3 ≤ Nat.minFac n := by
      have := hmfp.two_le
      omega
    exact h (Nat.minFac n) h3mf hsq hmfodd hmf
  · intro hp j h3j hjj hjodd hdvd
    rcases hp.eq_one_or_self_of_dvd j hdvd with h1 | hn
    · omega
    · subst hn
      nlinarith

/-- C5 counterexample: 2^53 is a positive integer on which `isPrime` does not
succeed — it fails with the maximum-bound failure of the validation
pipeline. -/
theorem c5_isPrime_above_safe_counterexample :
    Num.isPrime (.num (.fin 9007199254740992)) none =
      .error
        ("Number (9007199254740992) is greater than maximum allowed value" ++
          " (9007199254740991)") := by
  decide

/-- C5 (amended): `isPrime` rejects zero, negative and (in-range) non-integer
inputs; on every positive integer up to `MAX_SAFE_INTEGER` it succeeds,
returning false for 1, true for 2, false for 4, and in general true exactly
when the input is prime (odd divisors are tested up to the square root). -/
theorem c5_isPrime_characterization :
    (∀ o : Option Num.NumberValidationOptions,
      Num.isPrime (.num (.fin 0)) o = .error "Number cannot be zero") ∧
    (∀ (q : ℚ) (o : Option Num.NumberValidationOptions), q < 0 →
      Num.isPrime (.num (.fin q)) o = .error "Number cannot be negative") ∧
    (∀ q : ℚ, 0 < q → q ≤ Num.MAX_SAFE_INTEGER → q.den ≠ 1 →
      Num.isPrime (.num (.fin q)) none =
        .error "Prime check is only defined for integers") ∧
    (∀ n : ℕ, 1 ≤ n → (n : ℚ) ≤ Num.MAX_SAFE_INTEGER →
      (∃ b, Num.isPrime (.num (.fin n)) none = .ok b) ∧
      (Num.isPrime (.num (.fin n)) none = .ok true ↔ Nat.Prime n)) ∧
    (Num.isPrime (.num (.fin 1)) none = .ok false ∧
      Num.isPrime (.num (.fin 2)) none = .ok true ∧
      Num.isPrime (.num (.fin 4)) none = .ok false) := by
  refine ⟨?_, ?_, ?_, ?_, by decide, by decide, by decide⟩
  · intro o
    simp [Num.isPrime, Num.isNumber, Num.primeOptions, Num.mergeOptions,
      overlay, Num.DEFAULT_OPTIONS, truthy, JSNum.isNaN, JSNum.isFinite,
      jsEq, bind, Except.bind]
  · intro q o hq
    have hz : ¬ jsEq (JSNum.fin q) (.fin 0) = true := by
      simp [jsEq]
      intro h
      rw [h] at hq
      exact absurd hq (by norm_num)
    simp [Num.isPrime, Num.isNumber, Num.primeOptions, Num.mergeOptions,
      overlay, Num.DEFAULT_OPTIONS, truthy, JSNum.isNaN, JSNum.isFinite,
      jsLt, hz, hq, bind, Except.bind]
  · intro q h0 hmax hden
    have hz : ¬ (q = 0) := by
      intro h
      rw [h] at h0
      exact absurd h0 (by norm_num)
    have hneg : ¬ (q < 0) := by linarith
    have hmax2 : ¬ (Num.MAX_SAFE_INTEGER < q) := not_lt.mpr hmax
    simp [Num.isPrime, isNumber_fin_primeDefault, hz, hneg, hmax2,
      Num.asNumber, JSNum.isInteger, hden, bind, Except.bind]
  · intro n h1 hmax
    have hz : ¬ ((n : ℚ) = 0) := by
      simp
      omega
    have hneg : ¬ ((n : ℚ) < 0) := not_lt.mpr (Nat.cast_nonneg n)
    have hmax2 : ¬ (Num.MAX_SAFE_INTEGER < (n : ℚ)) := not_lt.mpr hmax
    have heval : Num.isPrime (.num (.fin n)) none =
        (if n = 1 then .ok false
         else if n = 2 then .ok true
         else if n % 2 = 0 then .ok false
         else .ok (Num.oddLoop n 3)) := by
      simp [Num.isPrime, isNumber_fin_primeDefault, hz, hneg, hmax2,
        Num.asNumber, JSNum.isInteger, bind, Except.bind, pure, Except.pure,
        Rat.num_natCast, Int.toNat_natCast]
    rw [heval]
    by_cases hn1 : n = 1
    · subst hn1
      have hnp : ¬ Nat.Prime 1 := by decide
      simp [hnp]
    · by_cases hn2 : n = 2
      · subst hn2
        simp [Nat.prime_two]
      · by_cases heven : n % 2 = 0
        · have hnp : ¬ Nat.Prime n := by
            intro hp
            rcases (Nat.Prime.eq_one_or_self_of_dvd hp 2
              (Nat.dvd_of_mod_eq_zero heven)) with h | h
            · omega
            · omega
          simp [hn1, hn2, heven, hnp]
        · have h3 : 3 ≤ n := by omega
          have hodd : n % 2 = 1 := by omega
          simp only [hn1, hn2, heven, if_false, if_neg, not_false_iff]
          constructor
          · exact ⟨Num.oddLoop n 3, rfl⟩
          · rw [← oddLoop_prime n h3 hodd]
            constructor
            · intro h
              injection h
            · intro h
              rw [h]

/-- Witness for C5 at concrete inputs. -/
theorem c5_isPrime_characterization_witness :
    Num.isPrime (.num (.fin 0)) none = .error "Number cannot be zero" ∧
    Num.isPrime (.num (.fin (-7))) none =
      .error "Number cannot be negative" ∧
    Num.isPrime (.num (.fin (mkRat 5 2))) none =
      .error "Prime check is only defined for integers" ∧
    (∃ b, Num.isPrime (.num (.fin 2)) none = .ok b) ∧
    (Num.isPrime (.num (.fin 2)) none = .ok true ↔ Nat.Prime 2) := by
  refine ⟨c5_isPrime_characterization.1 none,
    c5_isPrime_characterization.2.1 (-7) none (by norm_num),
    c5_isPrime_characterization.2.2.1 (mkRat 5 2) (by decide)
      (by decide) (by decide), ?_, ?_⟩
  · have h := (c5_isPrime_characterization.2.2.2.1 2 (by norm_num)
      (by norm_num [Num.MAX_SAFE_INTEGER])).1
    simpa using h
  · have h := (c5_isPrime_characterization.2.2.2.1 2 (by norm_num)
      (by norm_num [Num.MAX_SAFE_INTEGER])).2
    simpa using h

/-- Code of a digit character. -/
theorem digitChar_toNat (d : ℕ) (h : d < 10) :
    (digitChar d).toNat = 48 + d := by
  interval_cases d <;> decide

/-- Digit characters satisfy the digit predicate. -/
theorem isDigitChar_digitChar (d : ℕ) :
    Num.isDigitChar (digitChar d) = true := by
  unfold digitChar
  split <;> decide

/-- Every character the digit printer emits is a digit. -/
theorem natDigitsAux_mem_digit :
    ∀ (fuel n : ℕ), ∀ c ∈ natDigitsAux fuel n, Num.isDigitChar c = true := by
  intro fuel
  induction fuel with
  | zero => intro n c hc; simp [natDigitsAux] at hc
  | succ fuel ih =>
    intro n c hc
    unfold natDigitsAux at hc
    by_cases h10 : n < 10
    · simp [h10] at hc
      subst hc
      exact isDigitChar_digitChar n
    · simp [h10] at hc
      rcases hc with hc | hc
      · exact ih (n / 10) c hc
      · subst hc
        exact isDigitChar_digitChar (n % 10)

/-- The digit printer never returns the empty list. -/
theorem natDigits_ne_nil (n : ℕ) : natDigits n ≠ [] := by
  unfold natDigits natDigitsAux
  by_cases h10 : n < 10 <;> simp [h10]

/-- Appending one digit multiplies the parsed value by ten. -/
theorem digitsToNat_append (ds : List Char) (c : Char) :
    Num.digitsToNat (ds ++ [c]) =
      10 * Num.digitsToNat ds + (c.toNat - 48) := by
  simp [Num.digitsToNat, List.foldl_append]

/-- The digit parser inverts the digit printer (with adequate fuel). -/
theorem digitsToNat_natDigitsAux :
    ∀ fuel n : ℕ, n < 10 ^ fuel →
      Num.digitsToNat (natDigitsAux fuel n) = n := by
  intro fuel
  induction fuel with
  | zero =>
    intro n h
    simp at h
    simp [h, natDigitsAux, Num.digitsToNat]
  | succ fuel ih =>
    intro n h
    unfold natDigitsAux
    by_cases h10 : n < 10
    · simp [h10, Num.digitsToNat, digitChar_toNat n h10]
    · rw [if_neg h10, digitsToNat_append]
      have hdiv : n / 10 < 10 ^ fuel := by
        rw [Nat.div_lt_iff_lt_mul (by norm_num)]
        calc n < 10 ^ (fuel + 1) := h
          _ = 10 ^ fuel * 10 := by ring
      rw [ih (n / 10) hdiv, digitChar_toNat (n % 10) (Nat.mod_lt n (by norm_num))]
      omega

/-- The digit parser inverts the digit printer. -/
theorem digitsToNat_natDigits (n : ℕ) :
    Num.digitsToNat (natDigits n) = n := by
  apply digitsToNat_natDigitsAux
  calc n < 10 ^ n := Nat.lt_pow_self (by norm_num) n
    _ ≤ 10 ^ (n + 1) := Nat.pow_le_pow_right (by norm_num) (by omega)

/-- A digit character is not trimmed whitespace. -/
theorem digit_not_space (c : Char) (h : Num.isDigitChar c = true) :
    isJsSpace c = false := by
  rcases hs : isJsSpace c
  · rfl
  · exfalso
    simp [isJsSpace] at hs
    rcases hs with rfl | rfl | rfl | rfl | rfl | rfl <;>
      simp [Num.isDigitChar] at h

/-- A digit character is neither a minus nor a plus sign. -/
theorem digit_ne_sign (c : Char) (h : Num.isDigitChar c = true) :
    c ≠ '-' ∧ c ≠ '+' := by
  constructor <;> rintro rfl <;> simp [Num.isDigitChar] at h

/-- `dropWhile` is the identity on a list without matching characters. -/
theorem dropWhile_eq_self_of_none (p : Char → Bool) :
    ∀ l : List Char, (∀ c ∈ l, p c = false) → l.dropWhile p = l := by
  intro l h
  induction l with
  | nil => rfl
  | cons c cs ih =>
    rw [List.dropWhile_cons_of_neg]
    · simp [h c (by simp)]

/-- `takeWhile` keeps a list all of whose characters match. -/
theorem takeWhile_eq_self_of_all (p : Char → Bool) :
    ∀ l : List Char, (∀ c ∈ l, p c = true) → l.takeWhile p = l := by
  intro l h
  induction l with
  | nil => rfl
  | cons c cs ih =>
    rw [List.takeWhile_cons_of_pos (by simp [h c (by simp)])]
    rw [ih (fun d hd => h d (by simp [hd]))]

/-- `dropWhile` exhausts a list all of whose characters match. -/
theorem dropWhile_eq_nil_of_all (p : Char → Bool) :
    ∀ l : List Char, (∀ c ∈ l, p c = true) → l.dropWhile p = [] := by
  intro l h
  induction l with
  | nil => rfl
  | cons c cs ih =>
    rw [List.dropWhile_cons_of_pos (by simp [h c (by simp)])]
    exact ih (fun d hd => h d (by simp [hd]))

/-- Trimming is the identity on a list without whitespace. -/
theorem jsTrimList_eq_self (l : List Char)
    (h : ∀ c ∈ l, isJsSpace c = false) : jsTrimList l = l := by
  unfold jsTrimList
  rw [dropWhile_eq_self_of_none _ l h]
  rw [dropWhile_eq_self_of_none _ l.reverse (fun c hc => h c (by simpa using hc))]
  exact List.reverse_reverse l

/-- The decimal parser on a non-empty all-digit list yields its value. -/
theorem parseDecimal_digits (ds : List Char) (hne : ds ≠ [])
    (hall : ∀ c ∈ ds, Num.isDigitChar c = true) :
    Num.parseDecimal ds = some ((Num.digitsToNat ds : ℕ) : ℚ) := by
  rcases ds with _ | ⟨c, cs⟩
  · exact absurd rfl hne
  · obtain ⟨hc1, hc2⟩ := digit_ne_sign c (hall c (by simp))
    have ht : List.takeWhile Num.isDigitChar (c :: cs) = c :: cs :=
      takeWhile_eq_self_of_all _ _ hall
    have hd : List.dropWhile Num.isDigitChar (c :: cs) = [] :=
      dropWhile_eq_nil_of_all _ _ hall
    simp [Num.parseDecimal, hc1, hc2, ht, hd]

/-- The decimal parser on a minus sign followed by digits yields the negated
value. -/
theorem parseDecimal_neg_digits (ds : List Char) (hne : ds ≠ [])
    (hall : ∀ c ∈ ds, Num.isDigitChar c = true) :
    Num.parseDecimal ('-' :: ds) = some (-((Num.digitsToNat ds : ℕ) : ℚ)) := by
  have ht : List.takeWhile Num.isDigitChar ds = ds :=
    takeWhile_eq_self_of_all _ _ hall
  have hd : List.dropWhile Num.isDigitChar ds = [] :=
    dropWhile_eq_nil_of_all _ _ hall
  simp [Num.parseDecimal, ht, hd, hne]

/-- The digit printer starts with a digit character. -/
theorem natDigits_head_digit (n : ℕ) :
    ∃ c cs, natDigits n = c :: cs ∧ Num.isDigitChar c = true := by
  rcases h : natDigits n with _ | ⟨c, cs⟩
  · exact absurd h (natDigits_ne_nil n)
  · exact ⟨c, cs, rfl,
      natDigitsAux_mem_digit (n + 1) n c (by rw [natDigits] at h; simp [h])⟩

/-- `Number(…)` recovers a natural number from its decimal representation. -/
theorem jsToNumber_natRepr (n : ℕ) :
    Num.jsToNumber (natRepr n) = .fin (n : ℚ) := by
  obtain ⟨c, cs, hds, hcd⟩ := natDigits_head_digit n
  have hall : ∀ d ∈ natDigits n, Num.isDigitChar d = true :=
    fun d hd => natDigitsAux_mem_digit (n + 1) n d (by rwa [natDigits] at hd)
  have htrim : jsTrimList (natRepr n).data = natDigits n := by
    show jsTrimList (natDigits n) = natDigits n
    exact jsTrimList_eq_self _ fun d hd => digit_not_space d (hall d hd)
  have hne : natDigits n ≠ [] := natDigits_ne_nil n
  have hInf : natDigits n ≠ "Infinity".data := by
    rw [hds]
    intro h
    injection h with h1 _
    rw [h1] at hcd
    exact absurd hcd (by decide)
  have hpInf : natDigits n ≠ "+Infinity".data := by
    rw [hds]
    intro h
    injection h with h1 _
    rw [h1] at hcd
    exact absurd hcd (by decide)
  have hnInf : natDigits n ≠ "-Infinity".data := by
    rw [hds]
    intro h
    injection h with h1 _
    rw [h1] at hcd
    exact absurd hcd (by decide)
  rw [Num.jsToNumber, htrim]
  rw [if_neg hne, if_neg (by simp [hInf, hpInf]), if_neg hnInf]
  rw [parseDecimal_digits (natDigits n) hne hall, digitsToNat_natDigits]

/-- `Number(…)` recovers a negated natural number from a minus sign followed
by its decimal representation. -/
theorem jsToNumber_negRepr (n : ℕ) :
    Num.jsToNumber ("-" ++ natRepr n) = .fin (-(n : ℚ)) := by
  obtain ⟨c, cs, hds, hcd⟩ := natDigits_head_digit n
  have hall : ∀ d ∈ natDigits n, Num.isDigitChar d = true :=
    fun d hd => natDigitsAux_mem_digit (n + 1) n d (by rwa [natDigits] at hd)
  have hdata : ("-" ++ natRepr n).data = '-' :: natDigits n := by
    show ("-" : String).data ++ (natRepr n).data = '-' :: natDigits n
    rfl
  have htrim : jsTrimList (("-" ++ natRepr n)).data = '-' :: natDigits n := by
    rw [hdata]
    refine jsTrimList_eq_self _ ?_
    intro d hd
    rcases List.mem_cons.mp hd with rfl | hd2
    · decide
    · exact digit_not_space d (hall d hd2)
  have hne : ('-' :: natDigits n : List Char) ≠ [] := by simp
  have hInf : ('-' :: natDigits n : List Char) ≠ "Infinity".data := by
    intro h
    injection h with h1 _
    exact absurd h1 (by decide)
  have hpInf : ('-' :: natDigits n : List Char) ≠ "+Infinity".data := by
    intro h
    injection h with h1 _
    exact absurd h1 (by decide)
  have hnInf : ('-' :: natDigits n : List Char) ≠ "-Infinity".data := by
    rw [hds]
    intro h
    injection h with _ h2
    injection h2 with h3 _
    rw [h3] at hcd
    exact absurd hcd (by decide)
  rw [Num.jsToNumber, htrim]
  rw [if_neg hne, if_neg (by simp [hInf, hpInf]), if_neg hnInf]
  rw [parseDecimal_neg_digits (natDigits n) (natDigits_ne_nil n) hall,
    digitsToNat_natDigits]

/-- Rounding half-up at zero fractional digits is the identity on integers. -/
theorem fdiv_round_int (k : ℤ) : (2 * k * intPow10 0 + 1).fdiv 2 = k := by
  rw [Int.fdiv_eq_ediv _ (by norm_num)]
  have h : 2 * k * intPow10 0 + 1 = 1 + k * 2 := by
    simp [intPow10]
    ring
  rw [h, Int.add_mul_ediv_right 1 k (by norm_num)]
  norm_num

/-- `toFixed`'s digit string at zero decimals is the plain integer
representation, for integers below the exponent-form threshold. -/
theorem fixedRepr_int (m : ℤ) (hm : (m.natAbs : ℤ) < intPow10 21) :
    Num.fixedRepr (m : ℚ) 0 = intRepr m := by
  have h21 : intPow10 21 = 1000000000000000000000 := by decide
  have hden : ((m : ℚ)).den = 1 := Rat.den_intCast m
  have hnum : ((m : ℚ)).num = m := Rat.num_intCast m
  rw [h21] at hm
  have hguard : ¬ (intPow10 21 * (((m : ℚ)).den : ℤ) ≤
      ((((m : ℚ)).num.natAbs : ℕ) : ℤ)) := by
    rw [hden, hnum, h21]
    simp only [Nat.cast_one, mul_one]
    omega
  rw [Num.fixedRepr, if_neg hguard]
  by_cases hneg : m < 0
  · rw [if_pos (by exact_mod_cast Int.cast_lt_zero.mpr hneg)]
    have hcast : -((m : ℚ)) = ((-m : ℤ) : ℚ) := by push_cast; ring
    rw [hcast, Num.fixedReprNN]
    rw [Rat.den_intCast, Rat.num_intCast]
    simp only [Nat.cast_one, mul_one, if_true]
    rw [fdiv_round_int (-m)]
    have htn : (-m).toNat = m.natAbs := by omega
    rw [htn, intRepr, if_pos hneg]
  · rw [if_neg (by
      intro hc
      exact hneg (by exact_mod_cast Int.cast_lt_zero.mp hc))]
    rw [Num.fixedReprNN, hden, hnum]
    simp only [Nat.cast_one, mul_one, if_true]
    rw [fdiv_round_int m]
    rw [intRepr, if_neg hneg]

/-- Trimming the printed digits of a natural number changes nothing. -/
theorem jsTrimList_natRepr (n : ℕ) :
    jsTrimList (natRepr n).data = natDigits n := by
  show jsTrimList (natDigits n) = natDigits n
  exact jsTrimList_eq_self _ fun d hd =>
    digit_not_space d (natDigitsAux_mem_digit (n + 1) n d (by
      rwa [natDigits] at hd))

/-- `toFixed` under default configuration prints an in-range integer in plain
decimal form. -/
theorem toFixed_int (m : ℤ) (h1 : -Num.MAX_SAFE_INTEGER ≤ (m : ℚ))
    (h2 : (m : ℚ) ≤ Num.MAX_SAFE_INTEGER) :
    Num.toFixed (.num (.fin (m : ℚ))) none none = .ok (intRepr m) := by
  have hval : Num.isNumber (.num (.fin (m : ℚ))) none = .ok () := by
    rw [isNumber_fin_default, if_neg (not_lt.mpr h1), if_neg (not_lt.mpr h2)]
  rw [show Num.MAX_SAFE_INTEGER = ((9007199254740991 : ℤ) : ℚ) by
    norm_num [Num.MAX_SAFE_INTEGER]] at h1 h2
  have hm1 : m ≤ 9007199254740991 := by exact_mod_cast h2
  have hm2 : -9007199254740991 ≤ m := by exact_mod_cast h1
  have habs : (m.natAbs : ℤ) < intPow10 21 := by
    have h21 : intPow10 21 = 1000000000000000000000 := by decide
    omega
  have hcond : ((0 : ℚ)).den = 1 ∧ (0 : ℚ) ≤ 0 ∧ (0 : ℚ) ≤ 20 :=
    ⟨by decide, le_refl 0, by norm_num⟩
  simp only [Num.toFixed, hval, bind, Except.bind, Option.getD_none]
  rw [if_neg (not_not_intro hcond)]
  simp only [Num.asNumber, bind, Except.bind]
  rw [show ((0 : ℚ)).num.toNat = 0 by decide]
  rw [fixedRepr_int m habs]

/-- `parseNumber` under default configuration recovers an in-range integer
from its plain decimal form. -/
theorem parseNumber_intRepr (m : ℤ) (h1 : -Num.MAX_SAFE_INTEGER ≤ (m : ℚ))
    (h2 : (m : ℚ) ≤ Num.MAX_SAFE_INTEGER) :
    Num.parseNumber (.str (intRepr m)) none = .ok (.fin (m : ℚ)) := by
  have hval : Num.isNumber (.num (.fin (m : ℚ))) none = .ok () := by
    rw [isNumber_fin_default, if_neg (not_lt.mpr h1), if_neg (not_lt.mpr h2)]
  by_cases hneg : m < 0
  · have hrepr : intRepr m = "-" ++ natRepr m.natAbs := by
      rw [intRepr, if_pos hneg]
    have hdata : ("-" ++ natRepr m.natAbs).data = '-' :: natDigits m.natAbs :=
      rfl
    have htrim : jsTrimList ("-" ++ natRepr m.natAbs).data =
        '-' :: natDigits m.natAbs := by
      rw [hdata]
      refine jsTrimList_eq_self _ ?_
      intro d hd
      rcases List.mem_cons.mp hd with rfl | hd2
      · decide
      · exact digit_not_space d
          (natDigitsAux_mem_digit (m.natAbs + 1) m.natAbs d (by
            rwa [natDigits] at hd2))
    have hcast : (-((m.natAbs : ℕ) : ℚ)) = (m : ℚ) := by
      have hnat : ((m.natAbs : ℕ) : ℤ) = -m := by omega
      calc -((m.natAbs : ℕ) : ℚ) = -((((m.natAbs : ℕ) : ℤ)) : ℚ) := by
            rw [Int.cast_natCast]
        _ = -(((-m : ℤ)) : ℚ) := by rw [hnat]
        _ = (m : ℚ) := by push_cast; ring
    rw [hrepr]
    simp only [Num.parseNumber]
    rw [if_neg (by
      rw [htrim]
      simp)]
    rw [jsToNumber_negRepr m.natAbs]
    rw [hcast]
    simp only [JSNum.isNaN, Bool.false_eq_true, if_false, if_neg, hval, bind,
      Except.bind, pure, Except.pure]
  · have hrepr : intRepr m = natRepr m.toNat := by
      rw [intRepr, if_neg hneg]
    have hcast : (((m.toNat : ℕ)) : ℚ) = (m : ℚ) := by
      have : ((m.toNat : ℕ) : ℤ) = m := Int.toNat_of_nonneg (not_lt.mp hneg)
      exact_mod_cast congrArg (fun z : ℤ => (z : ℚ)) this
    rw [hrepr]
    simp only [Num.parseNumber]
    rw [if_neg (by
      rw [jsTrimList_natRepr]
      simp [natDigits_ne_nil])]
    rw [jsToNumber_natRepr m.toNat]
    rw [hcast]
    simp only [JSNum.isNaN, Bool.false_eq_true, if_false, if_neg, hval, bind,
      Except.bind, pure, Except.pure]

/-- C3 counterexample: for the representable finite number 1/2 (within
safe-integer bounds) the round trip does not recover the value — default
`toFixed` prints "1", which parses back to 1, not 1/2. -/
theorem c3_roundtrip_counterexample :
    Num.toFixed (.num (.fin (mkRat 1 2))) none none = .ok "1" ∧
    Num.parseNumber (.str "1") none = .ok (.fin 1) ∧
    JSNum.fin (mkRat 1 2) ≠ JSNum.fin 1 := by
  refine ⟨by decide, ?_, by decide⟩
  have h := parseNumber_intRepr 1 (by norm_num [Num.MAX_SAFE_INTEGER])
    (by norm_num [Num.MAX_SAFE_INTEGER])
  rw [show intRepr 1 = "1" by decide] at h
  simpa using h

/-- C3 (amended): for every integer within safe-integer bounds, parsing the
text produced by `toFixed` under default configuration recovers the value. -/
theorem c3_roundtrip_integers :
    ∀ m : ℤ, -Num.MAX_SAFE_INTEGER ≤ (m : ℚ) →
      (m : ℚ) ≤ Num.MAX_SAFE_INTEGER →
      ∃ s, Num.toFixed (.num (.fin (m : ℚ))) none none = .ok s ∧
        Num.parseNumber (.str s) none = .ok (.fin (m : ℚ)) :=
  fun m h1 h2 => ⟨intRepr m, toFixed_int m h1 h2, parseNumber_intRepr m h1 h2⟩

/-- Witness for C3 at the integer 42. -/
theorem c3_roundtrip_integers_witness :
    ∃ s, Num.toFixed (.num (.fin ((42 : ℤ) : ℚ))) none none = .ok s ∧
      Num.parseNumber (.str s) none = .ok (.fin ((42 : ℤ) : ℚ)) :=
  c3_roundtrip_integers 42 (by norm_num [Num.MAX_SAFE_INTEGER])
    (by norm_num [Num.MAX_SAFE_INTEGER])

/-- Character order is the order of the code points. -/
theorem char_le_iff {a b : Char} : a ≤ b ↔ a.toNat ≤ b.toNat := Iff.rfl

/-- Characters with equal code points are equal. -/
theorem char_eq_of_toNat {a b : Char} (h : a.toNat = b.toNat) : a = b :=
  Char.ext (UInt32.ext h)

/-- Code point of `Char.ofNat` below the surrogate range. -/
theorem char_toNat_ofNat (n : ℕ) (h : n < 55296) : (Char.ofNat n).toNat = n := by
  rw [Char.ofNat, dif_pos (Or.inl h)]
  rfl

/-- Code points are bounded by the Unicode range. -/
theorem char_toNat_lt (c : Char) : c.toNat < 1114112 := by
  have h := c.valid
  show c.val.toNat < 1114112
  rcases h with h | ⟨h1, h2⟩ <;> omega

/-- Code point of the lower-cased character. -/
theorem toLowerChar_toNat (c : Char) :
    (toLowerChar c).toNat =
      if 65 ≤ c.toNat ∧ c.toNat ≤ 90 then c.toNat + 32 else c.toNat := by
  unfold toLowerChar
  split
  · rw [char_toNat_ofNat _ (by omega)]
  · rfl

/-- Code point of the upper-cased character. -/
theorem toUpperChar_toNat (c : Char) :
    (toUpperChar c).toNat =
      if 97 ≤ c.toNat ∧ c.toNat ≤ 122 then c.toNat - 32 else c.toNat := by
  unfold toUpperChar
  split
  · rw [char_toNat_ofNat _ (by omega)]
  · rfl

/-- Word-character membership by code point. -/
theorem isWordChar_iff (c : Char) :
    isWordChar c = true ↔
      (97 ≤ c.toNat ∧ c.toNat ≤ 122) ∨ (65 ≤ c.toNat ∧ c.toNat ≤ 90) ∨
        (48 ≤ c.toNat ∧ c.toNat ≤ 57) ∨ c.toNat = 95 := by
  simp only [isWordChar, char_le_iff, decide_eq_true_eq,
    show Char.toNat 'a' = 97 from rfl, show Char.toNat 'z' = 122 from rfl,
    show Char.toNat 'A' = 65 from rfl, show Char.toNat 'Z' = 90 from rfl,
    show Char.toNat '0' = 48 from rfl, show Char.toNat '9' = 57 from rfl]
  constructor
  · rintro (h | h | h | rfl)
    · exact Or.inl h
    · exact Or.inr (Or.inl h)
    · exact Or.inr (Or.inr (Or.inl h))
    · exact Or.inr (Or.inr (Or.inr rfl))
  · rintro (h | h | h | h)
    · exact Or.inl h
    · exact Or.inr (Or.inl h)
    · exact Or.inr (Or.inr (Or.inl h))
    · exact Or.inr (Or.inr (Or.inr (char_eq_of_toNat (by rw [h]; rfl))))

/-- Whitespace membership by code point. -/
theorem isJsSpace_iff (c : Char) :
    isJsSpace c = true ↔
      c.toNat = 32 ∨ c.toNat = 9 ∨ c.toNat = 10 ∨ c.toNat = 13 ∨
        c.toNat = 11 ∨ c.toNat = 12 := by
  simp only [isJsSpace, decide_eq_true_eq]
  constructor
  · rintro (rfl | rfl | rfl | rfl | rfl | rfl) <;> decide
  · rintro (h | h | h | h | h | h)
    · exact Or.inl (char_eq_of_toNat (by rw [h]; rfl))
    · exact Or.inr (Or.inl (char_eq_of_toNat (by rw [h]; rfl)))
    · exact Or.inr (Or.inr (Or.inl (char_eq_of_toNat (by rw [h]; rfl))))
    · exact Or.inr (Or.inr (Or.inr (Or.inl
        (char_eq_of_toNat (by rw [h]; rfl)))))
    · exact Or.inr (Or.inr (Or.inr (Or.inr (Or.inl
        (char_eq_of_toNat (by rw [h]; rfl))))))
    · exact Or.inr (Or.inr (Or.inr (Or.inr (Or.inr
        (char_eq_of_toNat (by rw [h]; rfl))))))

/-- Booleans agreeing as propositions are equal. -/
theorem bool_eq_of_iff {a b : Bool} (h : a = true ↔ b = true) : a = b := by
  cases a <;> cases b <;> simp_all

/-- Lower-casing never yields an upper-case letter. -/
theorem not_upper_toLowerChar (c : Char) :
    ¬ ('A' ≤ toLowerChar c ∧ toLowerChar c ≤ 'Z') := by
  simp only [char_le_iff, show Char.toNat 'A' = 65 from rfl,
    show Char.toNat 'Z' = 90 from rfl, toLowerChar_toNat]
  split <;> omega

/-- Lower-casing is idempotent. -/
theorem toLowerChar_toLowerChar (c : Char) :
    toLowerChar (toLowerChar c) = toLowerChar c := by
  apply char_eq_of_toNat
  rw [toLowerChar_toNat, toLowerChar_toNat]
  split_ifs <;> omega

/-- Upper-casing is idempotent. -/
theorem toUpperChar_toUpperChar (c : Char) :
    toUpperChar (toUpperChar c) = toUpperChar c := by
  apply char_eq_of_toNat
  rw [toUpperChar_toNat, toUpperChar_toNat]
  split_ifs <;> omega

/-- Upper-casing after lower-casing is plain upper-casing. -/
theorem toUpperChar_toLowerChar (c : Char) :
    toUpperChar (toLowerChar c) = toUpperChar c := by
  apply char_eq_of_toNat
  rw [toUpperChar_toNat, toLowerChar_toNat, toUpperChar_toNat]
  split_ifs <;> omega

/-- Upper-casing preserves word-character membership. -/
theorem isWordChar_toUpperChar (c : Char) :
    isWordChar (toUpperChar c) = isWordChar c := by
  apply bool_eq_of_iff
  rw [isWordChar_iff, isWordChar_iff, toUpperChar_toNat]
  split_ifs <;> omega

/-- Lower-casing preserves word-character membership. -/
theorem isWordChar_toLowerChar (c : Char) :
    isWordChar (toLowerChar c) = isWordChar c := by
  apply bool_eq_of_iff
  rw [isWordChar_iff, isWordChar_iff, toLowerChar_toNat]
  split_ifs <;> omega

/-- Lower-casing fixes every non-word character. -/
theorem toLowerChar_eq_self_of_not_word (c : Char)
    (h : isWordChar c = false) : toLowerChar c = c := by
  apply char_eq_of_toNat
  rw [toLowerChar_toNat]
  have h2 : ¬ (isWordChar c = true) := by simp [h]
  rw [isWordChar_iff] at h2
  split_ifs with hc <;> omega

/-- Whitespace is never a word character. -/
theorem isWordChar_eq_false_of_space (c : Char) (h : isJsSpace c = true) :
    isWordChar c = false := by
  rw [isJsSpace_iff] at h
  by_contra hw
  simp only [Bool.not_eq_false] at hw
  rw [isWordChar_iff] at hw
  omega

/-- Lower-casing preserves whitespace-ness. -/
theorem isJsSpace_toLowerChar (c : Char) :
    isJsSpace (toLowerChar c) = isJsSpace c := by
  apply bool_eq_of_iff
  rw [isJsSpace_iff, isJsSpace_iff, toLowerChar_toNat]
  split_ifs <;> omega

/-- Upper-casing preserves non-underscore-ness. -/
theorem toUpperChar_ne_underscore (c : Char) (h : c ≠ '_') :
    toUpperChar c ≠ '_' := by
  intro hu
  have h2 : (toUpperChar c).toNat = 95 := by rw [hu]; rfl
  rw [toUpperChar_toNat] at h2
  apply h
  apply char_eq_of_toNat
  show c.toNat = 95
  split_ifs at h2 <;> omega

/-- Lower-casing preserves non-underscore-ness. -/
theorem toLowerChar_ne_underscore (c : Char) (h : c ≠ '_') :
    toLowerChar c ≠ '_' := by
  intro hu
  have h2 : (toLowerChar c).toNat = 95 := by rw [hu]; rfl
  rw [toLowerChar_toNat] at h2
  apply h
  apply char_eq_of_toNat
  show c.toNat = 95
  split_ifs at h2 <;> omega

/-- The separator-insertion pass is the identity when no character is an
upper-case letter. -/
theorem insertBeforeUpper_eq_self (sep : Char) :
    ∀ l : List Char, (∀ c ∈ l, ¬ ('A' ≤ c ∧ c ≤ 'Z')) →
      Str.insertBeforeUpper sep l = l := by
  intro l h
  induction l with
  | nil => rfl
  | cons c cs ih =>
    rw [Str.insertBeforeUpper, if_neg (h c (by simp))]
    rw [ih fun d hd => h d (by simp [hd])]

/-- Lower-casing a whole list leaves no upper-case letter. -/
theorem lowerAll_no_upper (l : List Char) :
    ∀ c ∈ lowerAll l, ¬ ('A' ≤ c ∧ c ≤ 'Z') := by
  intro c hc
  rcases List.mem_map.mp hc with ⟨d, _, rfl⟩
  exact not_upper_toLowerChar d

/-- Lower-casing a whole list is idempotent. -/
theorem lowerAll_lowerAll (l : List Char) :
    lowerAll (lowerAll l) = lowerAll l := by
  simp only [lowerAll, List.map_map]
  exact List.map_congr_left fun c _ => toLowerChar_toLowerChar c

/-- The `snakeCase` computation is idempotent on every string. -/
theorem snakeBody_snakeBody (l : List Char) :
    Str.snakeBody (Str.snakeBody l) = Str.snakeBody l := by
  by_cases hm : Str.matchesSnake l = true
  · simp [Str.snakeBody, hm]
  · have ht : Str.snakeBody l = lowerAll (Str.insertBeforeUpper '_' l) := by
      simp [Str.snakeBody, hm]
    rw [ht]
    by_cases hmt : Str.matchesSnake (lowerAll (Str.insertBeforeUpper '_' l)) = true
    · simp [Str.snakeBody, hmt]
    · simp only [Str.snakeBody, hmt, if_false, if_neg, Bool.false_eq_true,
        not_false_iff]
      rw [insertBeforeUpper_eq_self '_' _ (lowerAll_no_upper _)]
      exact lowerAll_lowerAll _

/-- The `kebabCase` computation is idempotent on every string. -/
theorem kebabBody_kebabBody (l : List Char) :
    Str.kebabBody (Str.kebabBody l) = Str.kebabBody l := by
  by_cases hm : Str.matchesKebab l = true
  · simp [Str.kebabBody, hm]
  · have ht : Str.kebabBody l = lowerAll (Str.insertBeforeUpper '-' l) := by
      simp [Str.kebabBody, hm]
    rw [ht]
    by_cases hmt : Str.matchesKebab (lowerAll (Str.insertBeforeUpper '-' l)) = true
    · simp [Str.kebabBody, hmt]
    · simp only [Str.kebabBody, hmt, if_false, if_neg, Bool.false_eq_true,
        not_false_iff]
      rw [insertBeforeUpper_eq_self '-' _ (lowerAll_no_upper _)]
      exact lowerAll_lowerAll _

/-- Underscore-to-space replacement leaves no underscore. -/
theorem underscoresToSpaces_no_underscore (l : List Char) :
    ∀ c ∈ Str.underscoresToSpaces l, c ≠ '_' := by
  intro c hc
  rcases List.mem_map.mp hc with ⟨d, _, rfl⟩
  by_cases hd : d = '_' <;> simp [hd]

/-- Underscore-to-space replacement is the identity without underscores. -/
theorem underscoresToSpaces_eq_self (l : List Char)
    (h : ∀ c ∈ l, c ≠ '_') : Str.underscoresToSpaces l = l := by
  unfold Str.underscoresToSpaces
  induction l with
  | nil => rfl
  | cons c cs ih =>
    simp only [List.map_cons]
    rw [if_neg (h c (by simp)), ih fun d hd => h d (by simp [hd])]

/-- Word capitalization preserves the absence of underscores. -/
theorem wordCap_no_underscore (l : List Char) (h : ∀ c ∈ l, c ≠ '_') :
    ∀ prev, ∀ c ∈ Str.wordCap prev l, c ≠ '_' := by
  induction l with
  | nil => intro prev c hc; simp [Str.wordCap] at hc
  | cons d ds ih =>
    intro prev c hc
    rw [Str.wordCap] at hc
    rcases List.mem_cons.mp hc with rfl | hc2
    · split
      · exact toUpperChar_ne_underscore d (h d (by simp))
      · exact h d (by simp)
    · exact ih (fun e he => h e (by simp [he])) (isWordChar d) c hc2

/-- The first-character lower-casing preserves the absence of underscores. -/
theorem lcFirst_no_underscore (l : List Char) (h : ∀ c ∈ l, c ≠ '_') :
    ∀ c ∈ Str.lcFirst l, c ≠ '_' := by
  rcases l with _ | ⟨d, ds⟩
  · simp [Str.lcFirst]
  · intro c hc
    rcases List.mem_cons.mp hc with rfl | hc2
    · exact toLowerChar_ne_underscore d (h d (by simp))
    · exact h c (by simp [hc2])

/-- Members of the space-removal pass are non-space members of the input. -/
theorem removeSpaces_no_space (l : List Char) :
    ∀ c ∈ Str.removeSpaces l, isJsSpace c = false := by
  intro c hc
  have := List.of_mem_filter hc
  simpa using this

/-- Space removal is the identity on a list without whitespace. -/
theorem removeSpaces_eq_self (l : List Char)
    (h : ∀ c ∈ l, isJsSpace c = false) : Str.removeSpaces l = l := by
  unfold Str.removeSpaces
  rw [List.filter_eq_self]
  intro c hc
  simp [h c hc]

/-- Word capitalization is idempotent (with a common incoming flag). -/
theorem wordCap_wordCap (l : List Char) :
    ∀ prev, Str.wordCap prev (Str.wordCap prev l) = Str.wordCap prev l := by
  induction l with
  | nil => intro prev; rfl
  | cons c cs ih =>
    intro prev
    rw [Str.wordCap, Str.wordCap]
    by_cases hcond : isWordChar c = true ∧ ¬ prev = true
    · rw [if_pos hcond]
      have hw : isWordChar (toUpperChar c) = isWordChar c :=
        isWordChar_toUpperChar c
      rw [if_pos (by rw [hw]; exact hcond), toUpperChar_toUpperChar, hw,
        ih (isWordChar c)]
    · rw [if_neg hcond, if_neg hcond, ih (isWordChar c)]

/-- A word-capitalization fixed point at a word-flag of `false` is also
fixed at `true` (the head simply is not re-capitalized). -/
theorem wordCap_true_of_false (l : List Char)
    (h : Str.wordCap false l = l) : Str.wordCap true l = l := by
  rcases l with _ | ⟨c, cs⟩
  · rfl
  · rw [Str.wordCap] at h ⊢
    have htail : Str.wordCap (isWordChar c) cs = cs := (List.cons.injEq _ _ _ _ ▸ h).2
    simp only [Bool.not_true, and_false, if_false, if_neg, not_false_iff]
    rw [htail]
    simp

/-- Space removal preserves word-capitalization fixed points. -/
theorem wordCap_removeSpaces (l : List Char) :
    ∀ prev, Str.wordCap prev l = l →
      Str.wordCap prev (Str.removeSpaces l) = Str.removeSpaces l := by
  induction l with
  | nil => intro prev _; rfl
  | cons c cs ih =>
    intro prev h
    rw [Str.wordCap] at h
    have hhead := (List.cons.injEq _ _ _ _ ▸ h).1
    have htail : Str.wordCap (isWordChar c) cs = cs :=
      (List.cons.injEq _ _ _ _ ▸ h).2
    by_cases hsp : isJsSpace c = true
    · have hrs : Str.removeSpaces (c :: cs) = Str.removeSpaces cs := by
        simp [Str.removeSpaces, hsp]
      rw [hrs]
      have hwc : isWordChar c = false := isWordChar_eq_false_of_space c hsp
      rw [hwc] at htail
      have hfix := ih false htail
      cases prev
      · exact hfix
      · exact wordCap_true_of_false _ hfix
    · have hrs : Str.removeSpaces (c :: cs) = c :: Str.removeSpaces cs := by
        simp [Str.removeSpaces, hsp]
      rw [hrs, Str.wordCap, hhead, ih (isWordChar c) htail]

/-- Lower-casing the head of a word-capitalization fixed point and
re-capitalizing restores the fixed point. -/
theorem wordCap_lcFirst (m : List Char) (h : Str.wordCap false m = m) :
    Str.wordCap false (Str.lcFirst m) = m := by
  rcases m with _ | ⟨c, cs⟩
  · rfl
  · rw [Str.wordCap] at h
    have hhead := (List.cons.injEq _ _ _ _ ▸ h).1
    have htail : Str.wordCap (isWordChar c) cs = cs :=
      (List.cons.injEq _ _ _ _ ▸ h).2
    simp only [Bool.not_false, and_true] at hhead
    rw [Str.lcFirst, Str.wordCap]
    by_cases hw : isWordChar c = true
    · rw [if_pos (by simp [isWordChar_toLowerChar, hw])]
      rw [toUpperChar_toLowerChar]
      rw [if_pos (by simp [hw])] at hhead
      rw [hhead, isWordChar_toLowerChar, hw]
      rw [hw] at htail
      rw [htail]
    · rw [if_neg (by simp [isWordChar_toLowerChar, hw])]
      rw [toLowerChar_eq_self_of_not_word c (by simpa using hw)]
      rw [htail]

/-- The `camelCase` computation is idempotent on its own non-empty
outputs. -/
theorem camelBody_camelBody (l r : List Char)
    (h : Str.camelBody l = .ok r) (hr : r ≠ []) :
    Str.camelBody r = .ok r := by
  rw [Str.camelBody] at h
  by_cases htr : Str.stripLeadingUnderscores l = []
  · rw [if_pos htr] at h
    exact absurd h (by simp)
  · rw [if_neg htr] at h
    injection h with h
    subst h
    set v := Str.underscoresToSpaces (Str.stripLeadingUnderscores l) with hv
    set w := Str.wordCap false v with hw
    set m := Str.removeSpaces w with hm
    have hv_nous : ∀ c ∈ v, c ≠ '_' := underscoresToSpaces_no_underscore _
    have hw_nous : ∀ c ∈ w, c ≠ '_' := wordCap_no_underscore v hv_nous false
    have hm_nous : ∀ c ∈ m, c ≠ '_' := fun c hc =>
      hw_nous c (List.mem_of_mem_filter hc)
    have hr_nous : ∀ c ∈ Str.lcFirst m, c ≠ '_' := lcFirst_no_underscore m hm_nous
    have hm_nospace : ∀ c ∈ m, isJsSpace c = false := removeSpaces_no_space w
    have hr_nospace : ∀ c ∈ Str.lcFirst m, isJsSpace c = false := by
      rcases hmm : m with _ | ⟨c, cs⟩
      · simp [Str.lcFirst]
      · intro d hd
        rcases List.mem_cons.mp hd with rfl | hd2
        · rw [isJsSpace_toLowerChar]
          exact hm_nospace c (by rw [hmm]; simp)
        · exact hm_nospace d (by rw [hmm]; simp [hd2])
    have hm_fix : Str.wordCap false m = m :=
      wordCap_removeSpaces w false (by rw [hw]; exact wordCap_wordCap v false)
    rw [Str.camelBody]
    rw [show Str.stripLeadingUnderscores (Str.lcFirst m) = Str.lcFirst m from
      dropWhile_eq_self_of_none _ _ (fun c hc => by simp [hr_nous c hc])]
    rw [if_neg hr]
    rw [underscoresToSpaces_eq_self _ hr_nous]
    rw [wordCap_lcFirst m hm_fix]
    rw [removeSpaces_eq_self m hm_nospace]

/-- A string accepted by the textual validator is non-empty. -/
theorem isString_ok_data_ne_nil (t : String)
    (o : Option Str.StringValidationOptions)
    (h : Str.isString (.str t) o = .ok ()) : t.data ≠ [] := by
  intro h0
  rw [Str.isString] at h
  simp [h0] at h

/-- C8 counterexample: the accepted string " _ " maps under `camelCase` to
the empty string, and re-applying `camelCase` to that output fails
validation instead of returning it unchanged. -/
theorem c8_camelCase_empty_output_counterexample :
    Str.camelCase (.str " _ ") none = .ok "" ∧
    Str.camelCase (.str "") none = .error "String must not be empty" := by
  constructor <;> decide

/-- C8 (amended): whenever a case transform's output itself passes textual
validation, re-applying the transform returns the output unchanged — for
`snakeCase`, `kebabCase` and `camelCase`; in particular
`snakeCase (snakeCase "helloWorld")` equals `snakeCase "helloWorld"`. -/
theorem c8_case_transforms_idempotent :
    (∀ (s t : String) (o : Option Str.StringValidationOptions),
      Str.snakeCase (.str s) o = .ok t → Str.isString (.str t) o = .ok () →
        Str.snakeCase (.str t) o = .ok t) ∧
    (∀ (s t : String) (o : Option Str.StringValidationOptions),
      Str.kebabCase (.str s) o = .ok t → Str.isString (.str t) o = .ok () →
        Str.kebabCase (.str t) o = .ok t) ∧
    (∀ (s t : String) (o : Option Str.StringValidationOptions),
      Str.camelCase (.str s) o = .ok t → Str.isString (.str t) o = .ok () →
        Str.camelCase (.str t) o = .ok t) ∧
    Str.snakeCase (.str "helloWorld") none = .ok "hello_world" ∧
    Str.snakeCase (.str "hello_world") none = .ok "hello_world" := by
  refine ⟨?_, ?_, ?_, by decide, by decide⟩
  · intro s t o h1 h2
    cases hv : Str.isString (.str s) o with
    | error e => simp [Str.snakeCase, hv, bind, Except.bind] at h1
    | ok u =>
      cases u
      simp only [Str.snakeCase, hv, Str.asString, bind, Except.bind, pure,
        Except.pure, Except.ok.injEq] at h1
      subst h1
      simp only [Str.snakeCase, h2, Str.asString, bind, Except.bind, pure,
        Except.pure, Except.ok.injEq]
      rw [snakeBody_snakeBody]
  · intro s t o h1 h2
    cases hv : Str.isString (.str s) o with
    | error e => simp [Str.kebabCase, hv, bind, Except.bind] at h1
    | ok u =>
      cases u
      simp only [Str.kebabCase, hv, Str.asString, bind, Except.bind, pure,
        Except.pure, Except.ok.injEq] at h1
      subst h1
      simp only [Str.kebabCase, h2, Str.asString, bind, Except.bind, pure,
        Except.pure, Except.ok.injEq]
      rw [kebabBody_kebabBody]
  · intro s t o h1 h2
    cases hv : Str.isString (.str s) o with
    | error e => simp [Str.camelCase, hv, bind, Except.bind] at h1
    | ok u =>
      cases u
      simp only [Str.camelCase, hv, Str.asString, bind, Except.bind, pure,
        Except.pure] at h1
      cases hb : Str.camelBody s.data with
      | error e => rw [hb] at h1; exact absurd h1 (by simp)
      | ok r =>
        rw [hb] at h1
        simp only [Except.ok.injEq] at h1
        subst h1
        have hrne : r ≠ [] := by
          have := isString_ok_data_ne_nil (String.mk r) o h2
          simpa using this
        simp only [Str.camelCase, h2, Str.asString, bind, Except.bind, pure,
          Except.pure]
        rw [camelBody_camelBody s.data r hb hrne]

/-- Witness for C8: the snake-case output of "helloWorld" is itself accepted
and re-applying the transform fixes it. -/
theorem c8_case_transforms_idempotent_witness :
    Str.snakeCase (.str "hello_world") none = .ok "hello_world" :=
  c8_case_transforms_idempotent.1 "helloWorld" "hello_world" none
    (by decide) (by decide)
